import Mathlib

/-!
Verification of the nanoparticle_generator core against its design
specification.

The development shallowly embeds the in-scope parts of the program
(`blender.py` measurement/transform layer, the shape recipes in
`shapes/basic.py` and `shapes/fcc.py`, the randomized samplers in
`shapes/randomized/fcc.py`, and `scene_building.py`) over exact real
arithmetic.  The Mesh Engine (Blender) is out of scope per the spec and is
modelled as an abstract `Engine` record of mesh-transforming functions;
recipes are parameterized over it.  Float tolerances become exact
equalities/inequalities over `ℝ`.
-/

noncomputable section
open Classical

/-- 3D vector with real components; models `mathutils.Vector` and vertex
coordinates. -/
structure Vec3 where
  x : ℝ
  y : ℝ
  z : ℝ

instance : Add Vec3 := ⟨fun a b => ⟨a.x + b.x, a.y + b.y, a.z + b.z⟩⟩

instance : Sub Vec3 := ⟨fun a b => ⟨a.x - b.x, a.y - b.y, a.z - b.z⟩⟩

instance : Neg Vec3 := ⟨fun a => ⟨-a.x, -a.y, -a.z⟩⟩

instance : Zero Vec3 := ⟨⟨0, 0, 0⟩⟩

instance : SMul ℝ Vec3 := ⟨fun c a => ⟨c * a.x, c * a.y, c * a.z⟩⟩

@[simp] theorem Vec3.add_x (a b : Vec3) : (a + b).x = a.x + b.x := rfl

@[simp] theorem Vec3.add_y (a b : Vec3) : (a + b).y = a.y + b.y := rfl

@[simp] theorem Vec3.add_z (a b : Vec3) : (a + b).z = a.z + b.z := rfl

@[simp] theorem Vec3.sub_x (a b : Vec3) : (a - b).x = a.x - b.x := rfl

@[simp] theorem Vec3.sub_y (a b : Vec3) : (a - b).y = a.y - b.y := rfl

@[simp] theorem Vec3.sub_z (a b : Vec3) : (a - b).z = a.z - b.z := rfl

@[simp] theorem Vec3.smul_x (c : ℝ) (a : Vec3) : (c • a).x = c * a.x := rfl

@[simp] theorem Vec3.smul_y (c : ℝ) (a : Vec3) : (c • a).y = c * a.y := rfl

@[simp] theorem Vec3.smul_z (c : ℝ) (a : Vec3) : (c • a).z = c * a.z := rfl

@[simp] theorem Vec3.zero_x : (0 : Vec3).x = 0 := rfl

@[simp] theorem Vec3.zero_y : (0 : Vec3).y = 0 := rfl

@[simp] theorem Vec3.zero_z : (0 : Vec3).z = 0 := rfl

theorem Vec3.ext_iff {a b : Vec3} : a = b ↔ a.x = b.x ∧ a.y = b.y ∧ a.z = b.z := by
  cases a; cases b; simp [Vec3.mk.injEq]

/-- Minimum of a list of reals (0 for the empty list; meshes are nonempty in
practice). -/
def listMin : List ℝ → ℝ
  | [] => 0
  | a :: l => l.foldl min a

/-- Maximum of a list of reals (0 for the empty list). -/
def listMax : List ℝ → ℝ
  | [] => 0
  | a :: l => l.foldl max a

/-- Mesh data of one Blender object: ordered vertex positions and edges as
pairs of vertex indices (`object.data.vertices` / `object.data.edges`). -/
structure Mesh where
  verts : List Vec3
  edges : List (ℕ × ℕ)

/-- Minimum corner of the axis-aligned bounding box (`bound_box[0]`). -/
def bboxMin (m : Mesh) : Vec3 :=
  ⟨listMin (m.verts.map Vec3.x), listMin (m.verts.map Vec3.y),
   listMin (m.verts.map Vec3.z)⟩

/-- Maximum corner of the axis-aligned bounding box. -/
def bboxMax (m : Mesh) : Vec3 :=
  ⟨listMax (m.verts.map Vec3.x), listMax (m.verts.map Vec3.y),
   listMax (m.verts.map Vec3.z)⟩

/-- Bounding-box extents; models `blender_object.dimensions`. -/
def dims (m : Mesh) : Vec3 := bboxMax m - bboxMin m

/-- Bounding-box center; models `BlenderObjectReference.location`
(`bounding_box[0] + dimensions/2`). -/
def location (m : Mesh) : Vec3 := bboxMin m + (1 / 2 : ℝ) • dims m

/-- Euclidean norm of a vector (`Vector.length`). -/
def vlen (v : Vec3) : ℝ := Real.sqrt (v.x ^ 2 + v.y ^ 2 + v.z ^ 2)

/-- `enclosing_sphere_diameter`: twice the maximum distance from the
bounding-box center to any vertex. -/
def esd (m : Mesh) : ℝ :=
  2 * listMax (m.verts.map fun v => vlen (v - location m))

/-- `max(self.dimensions)`. -/
def maxDim (m : Mesh) : ℝ := max (max (dims m).x (dims m).y) (dims m).z

/-- `self.dimensions.z`. -/
def zDim (m : Mesh) : ℝ := (dims m).z

/-- `np.hypot(self.dimensions.x, self.dimensions.y)`: the planar diagonal. -/
def hypotXY (m : Mesh) : ℝ := Real.sqrt ((dims m).x ^ 2 + (dims m).y ^ 2)

/-- Translate every vertex (net effect of a baked translation). -/
def translateMesh (t : Vec3) (m : Mesh) : Mesh :=
  ⟨m.verts.map (· + t), m.edges⟩

/-- Multiply every vertex by a scalar (net effect of a baked uniform scale). -/
def smulMesh (c : ℝ) (m : Mesh) : Mesh :=
  ⟨m.verts.map (c • ·), m.edges⟩

/-- Multiply every vertex componentwise (net effect of a baked non-uniform
scale, as used by `Ellipsoid`/`Box`). -/
def compScale (s : Vec3) (m : Mesh) : Mesh :=
  ⟨m.verts.map (fun v => ⟨s.x * v.x, s.y * v.y, s.z * v.z⟩), m.edges⟩

/-- Quaternion with real components (`w + xi + yj + zk`). -/
structure Quat where
  w : ℝ
  x : ℝ
  y : ℝ
  z : ℝ

/-- Hamilton product. -/
def qmul (a b : Quat) : Quat :=
  ⟨a.w * b.w - a.x * b.x - a.y * b.y - a.z * b.z,
   a.w * b.x + a.x * b.w + a.y * b.z - a.z * b.y,
   a.w * b.y - a.x * b.z + a.y * b.w + a.z * b.x,
   a.w * b.z + a.x * b.y - a.y * b.x + a.z * b.w⟩

/-- Quaternion conjugate. -/
def qconj (a : Quat) : Quat := ⟨a.w, -a.x, -a.y, -a.z⟩

/-- Squared quaternion norm. -/
def qnormSq (a : Quat) : ℝ := a.w ^ 2 + a.x ^ 2 + a.y ^ 2 + a.z ^ 2

/-- Identity quaternion (Blender's identity rotation state). -/
def idQuat : Quat := ⟨1, 0, 0, 0⟩

/-- Rotation of a vector by a quaternion: the sandwich product `q p q⁻¹`,
divided by the squared norm so that it agrees with Blender's rotation for
the (normalized) quaternions the program uses. -/
def quatRot (q : Quat) (v : Vec3) : Vec3 :=
  let p := qmul (qmul q ⟨0, v.x, v.y, v.z⟩) (qconj q)
  (1 / qnormSq q) • ⟨p.x, p.y, p.z⟩

theorem quatRot_id (v : Vec3) : quatRot idQuat v = v := by
  cases v
  simp only [quatRot, qmul, qconj, qnormSq, idQuat]
  rw [Vec3.ext_iff]
  norm_num

/-- Rotate every vertex by a quaternion (net effect of a baked rotation). -/
def rotateMeshQ (q : Quat) (m : Mesh) : Mesh :=
  ⟨m.verts.map (quatRot q), m.edges⟩

theorem rotateMeshQ_id (m : Mesh) : rotateMeshQ idQuat m = m := by
  cases m with
  | mk vs es =>
    simp only [rotateMeshQ, Mesh.mk.injEq, and_true]
    exact List.map_id'' quatRot_id vs

/-! ## Geometric Object layer

`BlenderObjectReference` wraps one mesh entity; Blender additionally keeps a
pending local transform (location, rotation, scale).  `translate`, `rotate`
and `scale` set the corresponding pending component and immediately call
`apply_all_transforms` (`bpy.ops.object.transform_apply()`), which bakes the
pending transform into the vertex data (scale, then rotation, then location,
Blender's `matrix_basis` order) and resets the pending transform to
identity. -/

/-- One Blender object: mesh data plus the pending local transform. -/
structure Obj where
  mesh : Mesh
  loc : Vec3
  rot : Quat
  scl : Vec3

/-- The pending local transform is the identity. -/
def pendingIdentity (o : Obj) : Prop :=
  o.loc = 0 ∧ o.rot = idQuat ∧ o.scl = ⟨1, 1, 1⟩

/-- Bake one vertex through the pending transform (scale, rotate,
translate). -/
def bakeVert (o : Obj) (v : Vec3) : Vec3 :=
  quatRot o.rot ⟨o.scl.x * v.x, o.scl.y * v.y, o.scl.z * v.z⟩ + o.loc

/-- `apply_all_transforms`: bake the pending transform into the vertex data
and reset it to identity. -/
def applyAllTransforms (o : Obj) : Obj :=
  ⟨⟨o.mesh.verts.map (bakeVert o), o.mesh.edges⟩, 0, idQuat, ⟨1, 1, 1⟩⟩

/-- `translate`: set the pending location, then bake. -/
def translateO (o : Obj) (t : Vec3) : Obj :=
  applyAllTransforms { o with loc := t }

/-- `rotate(quaternion=q)`: set the pending rotation, then bake. -/
def rotateO (o : Obj) (q : Quat) : Obj :=
  applyAllTransforms { o with rot := q }

/-- Argument of `scale`: Python accepts a scalar or a 3-tuple. -/
inductive ScaleArg where
  | scalar (s : ℝ)
  | vector (v : Vec3)

/-- The broadcast `if isinstance(scale_vector, (float, int)):
scale_vector = (scale_vector,) * 3`. -/
def broadcastScale : ScaleArg → Vec3
  | .scalar s => ⟨s, s, s⟩
  | .vector v => v

/-- `scale`: broadcast a scalar argument, set the pending scale, then
bake. -/
def scaleO (o : Obj) (a : ScaleArg) : Obj :=
  applyAllTransforms { o with scl := broadcastScale a }

/-! ## List min/max helper lemmas -/

theorem foldl_min_comp_mul {α : Type} (f : α → ℝ) (c : ℝ) (hc : 0 ≤ c) :
    ∀ (l : List α) (a : ℝ),
      (l.map fun v => c * f v).foldl min (c * a) = c * (l.map f).foldl min a := by
  intro l
  induction l with
  | nil => intro a; rfl
  | cons b l ih =>
      intro a
      simp only [List.map, List.foldl]
      rw [← mul_min_of_nonneg _ _ hc, ih]

theorem foldl_max_comp_mul {α : Type} (f : α → ℝ) (c : ℝ) (hc : 0 ≤ c) :
    ∀ (l : List α) (a : ℝ),
      (l.map fun v => c * f v).foldl max (c * a) = c * (l.map f).foldl max a := by
  intro l
  induction l with
  | nil => intro a; rfl
  | cons b l ih =>
      intro a
      simp only [List.map, List.foldl]
      rw [← mul_max_of_nonneg _ _ hc, ih]

theorem foldl_min_comp_add {α : Type} (f : α → ℝ) (t : ℝ) :
    ∀ (l : List α) (a : ℝ),
      (l.map fun v => f v + t).foldl min (a + t) = (l.map f).foldl min a + t := by
  intro l
  induction l with
  | nil => intro a; rfl
  | cons b l ih =>
      intro a
      simp only [List.map, List.foldl]
      rw [min_add_add_right, ih]

theorem foldl_max_comp_add {α : Type} (f : α → ℝ) (t : ℝ) :
    ∀ (l : List α) (a : ℝ),
      (l.map fun v => f v + t).foldl max (a + t) = (l.map f).foldl max a + t := by
  intro l
  induction l with
  | nil => intro a; rfl
  | cons b l ih =>
      intro a
      simp only [List.map, List.foldl]
      rw [max_add_add_right, ih]

theorem listMin_comp_mul {α : Type} (f : α → ℝ) (c : ℝ) (hc : 0 ≤ c)
    (l : List α) : listMin (l.map fun v => c * f v) = c * listMin (l.map f) := by
  cases l with
  | nil => simp [listMin]
  | cons b l => simpa only [List.map, listMin] using foldl_min_comp_mul f c hc l (f b)

theorem listMax_comp_mul {α : Type} (f : α → ℝ) (c : ℝ) (hc : 0 ≤ c)
    (l : List α) : listMax (l.map fun v => c * f v) = c * listMax (l.map f) := by
  cases l with
  | nil => simp [listMax]
  | cons b l => simpa only [List.map, listMax] using foldl_max_comp_mul f c hc l (f b)

theorem listMin_comp_add {α : Type} (f : α → ℝ) (t : ℝ) (l : List α)
    (hl : l ≠ []) : listMin (l.map fun v => f v + t) = listMin (l.map f) + t := by
  cases l with
  | nil => exact absurd rfl hl
  | cons b l => simpa only [List.map, listMin] using foldl_min_comp_add f t l (f b)

theorem listMax_comp_add {α : Type} (f : α → ℝ) (t : ℝ) (l : List α)
    (hl : l ≠ []) : listMax (l.map fun v => f v + t) = listMax (l.map f) + t := by
  cases l with
  | nil => exact absurd rfl hl
  | cons b l => simpa only [List.map, listMax] using foldl_max_comp_add f t l (f b)

theorem le_foldl_max : ∀ (l : List ℝ) (a : ℝ), a ≤ l.foldl max a := by
  intro l
  induction l with
  | nil => intro a; exact le_refl a
  | cons b l ih => intro a; exact le_trans (le_max_left a b) (ih (max a b))

theorem listMax_nonneg {l : List ℝ} (h : ∀ x ∈ l, 0 ≤ x) : 0 ≤ listMax l := by
  cases l with
  | nil => exact le_refl 0
  | cons b l => exact le_trans (h b (by simp)) (le_foldl_max l b)

/-! ## Metric lemmas: homogeneity under baked scaling, invariance under
baked translation -/

theorem Vec3.smul_sub (c : ℝ) (a b : Vec3) : c • (a - b) = c • a - c • b := by
  cases a; cases b; rw [Vec3.ext_iff]; refine ⟨?_, ?_, ?_⟩ <;> simp <;> ring

theorem Vec3.add_sub_add (a b t : Vec3) : a + t - (b + t) = a - b := by
  cases a; cases b; cases t; rw [Vec3.ext_iff]; refine ⟨?_, ?_, ?_⟩ <;> simp

theorem bboxMin_smul (c : ℝ) (hc : 0 ≤ c) (m : Mesh) :
    bboxMin (smulMesh c m) = c • bboxMin m := by
  simp only [bboxMin, smulMesh, List.map_map]
  rw [Vec3.ext_iff]
  exact ⟨listMin_comp_mul Vec3.x c hc m.verts, listMin_comp_mul Vec3.y c hc m.verts,
    listMin_comp_mul Vec3.z c hc m.verts⟩

theorem bboxMax_smul (c : ℝ) (hc : 0 ≤ c) (m : Mesh) :
    bboxMax (smulMesh c m) = c • bboxMax m := by
  simp only [bboxMax, smulMesh, List.map_map]
  rw [Vec3.ext_iff]
  exact ⟨listMax_comp_mul Vec3.x c hc m.verts, listMax_comp_mul Vec3.y c hc m.verts,
    listMax_comp_mul Vec3.z c hc m.verts⟩

theorem dims_smul (c : ℝ) (hc : 0 ≤ c) (m : Mesh) :
    dims (smulMesh c m) = c • dims m := by
  rw [dims, bboxMin_smul c hc, bboxMax_smul c hc, ← Vec3.smul_sub, dims]

theorem location_smul (c : ℝ) (hc : 0 ≤ c) (m : Mesh) :
    location (smulMesh c m) = c • location m := by
  rw [location, bboxMin_smul c hc, dims_smul c hc, location]
  rw [Vec3.ext_iff]
  refine ⟨?_, ?_, ?_⟩ <;> simp <;> ring

theorem maxDim_smul (c : ℝ) (hc : 0 ≤ c) (m : Mesh) :
    maxDim (smulMesh c m) = c * maxDim m := by
  rw [maxDim, dims_smul c hc, maxDim]
  simp only [Vec3.smul_x, Vec3.smul_y, Vec3.smul_z]
  rw [← mul_max_of_nonneg _ _ hc, ← mul_max_of_nonneg _ _ hc]

theorem zDim_smul (c : ℝ) (hc : 0 ≤ c) (m : Mesh) :
    zDim (smulMesh c m) = c * zDim m := by
  rw [zDim, dims_smul c hc, zDim]; simp

theorem hypotXY_smul (c : ℝ) (hc : 0 ≤ c) (m : Mesh) :
    hypotXY (smulMesh c m) = c * hypotXY m := by
  rw [hypotXY, dims_smul c hc, hypotXY]
  simp only [Vec3.smul_x, Vec3.smul_y]
  rw [show (c * (dims m).x) ^ 2 + (c * (dims m).y) ^ 2
      = c ^ 2 * ((dims m).x ^ 2 + (dims m).y ^ 2) by ring,
    Real.sqrt_mul (sq_nonneg c), Real.sqrt_sq hc]

theorem vlen_smul (c : ℝ) (hc : 0 ≤ c) (v : Vec3) :
    vlen (c • v) = c * vlen v := by
  rw [vlen, vlen]
  simp only [Vec3.smul_x, Vec3.smul_y, Vec3.smul_z]
  rw [show (c * v.x) ^ 2 + (c * v.y) ^ 2 + (c * v.z) ^ 2
      = c ^ 2 * (v.x ^ 2 + v.y ^ 2 + v.z ^ 2) by ring,
    Real.sqrt_mul (sq_nonneg c), Real.sqrt_sq hc]

theorem vlen_nonneg (v : Vec3) : 0 ≤ vlen v := Real.sqrt_nonneg _

theorem esd_smul (c : ℝ) (hc : 0 ≤ c) (m : Mesh) :
    esd (smulMesh c m) = c * esd m := by
  rw [esd, esd, location_smul c hc]
  have hverts : (smulMesh c m).verts = m.verts.map (c • ·) := rfl
  rw [hverts, List.map_map]
  rw [show (fun v : Vec3 => vlen (v - c • location m)) ∘ (c • ·)
      = fun v : Vec3 => c * vlen (v - location m) from
    funext fun v => by
      simp only [Function.comp]
      rw [← Vec3.smul_sub, vlen_smul c hc]]
  rw [listMax_comp_mul (fun v => vlen (v - location m)) c hc m.verts]
  ring

theorem esd_nonneg (m : Mesh) : 0 ≤ esd m := by
  rw [esd]
  have : 0 ≤ listMax (m.verts.map fun v => vlen (v - location m)) := by
    refine listMax_nonneg ?_
    intro x hx
    rcases List.mem_map.mp hx with ⟨v, _, rfl⟩
    exact vlen_nonneg _
  linarith

theorem bboxMin_translate (t : Vec3) (m : Mesh) (h : m.verts ≠ []) :
    bboxMin (translateMesh t m) = bboxMin m + t := by
  simp only [bboxMin, translateMesh, List.map_map]
  rw [Vec3.ext_iff]
  refine ⟨?_, ?_, ?_⟩
  · exact listMin_comp_add Vec3.x t.x m.verts h
  · exact listMin_comp_add Vec3.y t.y m.verts h
  · exact listMin_comp_add Vec3.z t.z m.verts h

theorem bboxMax_translate (t : Vec3) (m : Mesh) (h : m.verts ≠ []) :
    bboxMax (translateMesh t m) = bboxMax m + t := by
  simp only [bboxMax, translateMesh, List.map_map]
  rw [Vec3.ext_iff]
  refine ⟨?_, ?_, ?_⟩
  · exact listMax_comp_add Vec3.x t.x m.verts h
  · exact listMax_comp_add Vec3.y t.y m.verts h
  · exact listMax_comp_add Vec3.z t.z m.verts h

theorem dims_translate (t : Vec3) (m : Mesh) (h : m.verts ≠ []) :
    dims (translateMesh t m) = dims m := by
  rw [dims, bboxMin_translate t m h, bboxMax_translate t m h, Vec3.add_sub_add, dims]

theorem location_translate (t : Vec3) (m : Mesh) (h : m.verts ≠ []) :
    location (translateMesh t m) = location m + t := by
  rw [location, bboxMin_translate t m h, dims_translate t m h, location]
  cases t
  rw [Vec3.ext_iff]
  refine ⟨?_, ?_, ?_⟩ <;> simp <;> ring

theorem esd_translate (t : Vec3) (m : Mesh) : esd (translateMesh t m) = esd m := by
  by_cases h : m.verts = []
  · rw [esd, esd, show (translateMesh t m).verts = m.verts.map (· + t) from rfl, h]
    rfl
  · rw [esd, esd, location_translate t m h,
      show (translateMesh t m).verts = m.verts.map (· + t) from rfl, List.map_map]
    rw [show (fun v : Vec3 => vlen (v - (location m + t))) ∘ (· + t)
        = fun v : Vec3 => vlen (v - location m) from
      funext fun v => by simp only [Function.comp]; rw [Vec3.add_sub_add]]

/-! ## Mesh Engine interface

Primitive creation, bevel/boolean modifiers, welding and extrusion are the
out-of-scope Mesh Engine collaborator; they are abstract parameters.  The
in-scope logic (guards, selections, offsets, rescales) is concrete. -/

/-- `BLENDER_EPS = 1e-5`, the tolerance for Blender floating point
operations. -/
def BLENDER_EPS : ℝ := 1e-5

/-- Boolean mesh operation kind. -/
inductive BoolOp where
  | intersect
  | difference
  | union

/-- Abstract Mesh Engine capabilities consumed by the recipes. -/
structure Engine where
  cube : ℝ → Mesh
  icoSphere : ℕ → ℝ → Mesh
  cylinder : ℕ → ℝ → ℝ → Mesh
  circle : ℕ → ℝ → Mesh
  bevelPct : ℝ → Mesh → Mesh
  bevelWidth : ℝ → ℕ → Mesh → Mesh
  bevelEdgesPct : ℝ → List (ℕ × ℕ) → Mesh → Mesh
  bevelEdgesWidth : ℝ → ℕ → List (ℕ × ℕ) → Mesh → Mesh
  bevelVertsWidth : ℝ → ℕ → List ℕ → Mesh → Mesh
  weld : Mesh → Mesh
  extrude : List ℕ → Vec3 → Mesh → Mesh
  extrudeCollapse : List ℕ → ℝ → Mesh → Mesh
  boolean : BoolOp → Mesh → Mesh → Mesh

/-- Propositional list filter (criteria are real-valued comparisons, so we
filter with `Prop` predicates and classical decidability). -/
def filterP {α : Type} (p : α → Prop) : List α → List α
  | [] => []
  | a :: l => if p a then a :: filterP p l else filterP p l

theorem mem_filterP {α : Type} (p : α → Prop) (l : List α) (a : α) :
    a ∈ filterP p l ↔ a ∈ l ∧ p a := by
  induction l with
  | nil => simp [filterP]
  | cons b l ih =>
      rw [filterP]
      split_ifs with hb
      · simp only [List.mem_cons, ih]
        constructor
        · rintro (rfl | ⟨h1, h2⟩)
          · exact ⟨Or.inl rfl, hb⟩
          · exact ⟨Or.inr h1, h2⟩
        · rintro ⟨rfl | h1, h2⟩
          · exact Or.inl rfl
          · exact Or.inr ⟨h1, h2⟩
      · simp only [List.mem_cons, ih]
        constructor
        · rintro ⟨h1, h2⟩
          exact ⟨Or.inr h1, h2⟩
        · rintro ⟨rfl | h1, h2⟩
          · exact absurd h2 hb
          · exact ⟨h1, h2⟩

/-- `select_vertices(criterion_func)`: indices of the vertices satisfying the
criterion (the selection is rebuilt from scratch each time). -/
def selVerts (p : Vec3 → Prop) (m : Mesh) : List ℕ :=
  filterP (fun i => p (m.verts.getD i 0)) (List.range m.verts.length)

/-- `select_edges(criterion_func)`: the edges satisfying the criterion. -/
def selEdges (p : ℕ × ℕ → Prop) (m : Mesh) : List (ℕ × ℕ) :=
  filterP p m.edges

/-- `bpy.ops.transform.translate(value=t)` in edit mode: move exactly the
selected vertices, leave the rest in place. -/
def translateSel (sel : List ℕ) (t : Vec3) (m : Mesh) : Mesh :=
  ⟨m.verts.enum.map (fun iv => if iv.1 ∈ sel then iv.2 + t else iv.2), m.edges⟩

/-! ## Shape Construction Library (`shapes/basic.py`) -/

/-- `Ellipsoid.__init__`: icosphere of radius 0.5 at the given subdivision
level, scaled componentwise to the requested dimensions (a scalar argument
broadcasts to all three axes before the call). -/
def ellipsoid (E : Engine) (d : Vec3) (subdivisions : ℕ) : Mesh :=
  compScale d (E.icoSphere subdivisions 0.5)

/-- `Box.__init__`: unit cube scaled componentwise to the requested
dimensions. -/
def boxMesh (E : Engine) (d : Vec3) : Mesh :=
  compScale d (E.cube 1)

/-- `SphericallyCappedCylinder.__init__`: ellipsoid of the given diameter;
extrude the vertices with `z > -BLENDER_EPS` upward by
`middle_section_height/2`; translate the vertices with `z < BLENDER_EPS`
downward by the same amount. -/
def scc (E : Engine) (diameter middle_section_height : ℝ)
    (subdivisions : ℕ) : Mesh :=
  let m0 := ellipsoid E ⟨diameter, diameter, diameter⟩ subdivisions
  let m1 := E.extrude (selVerts (fun v => v.z > -BLENDER_EPS) m0)
    ⟨0, 0, middle_section_height / 2⟩ m0
  translateSel (selVerts (fun v => v.z < BLENDER_EPS) m1)
    ⟨0, 0, -(middle_section_height / 2)⟩ m1

/-- Rescale so that the metric reaches the target:
`self.scale(target / metric(self))`, the final step of most recipes. -/
def rescaleTo (metric : Mesh → ℝ) (target : ℝ) (m : Mesh) : Mesh :=
  smulMesh (target / metric m) m

/-- The octahedron base: unit cube beveled at 100 percent offset, then
welded. -/
def octBase (E : Engine) : Mesh := E.weld (E.bevelPct 100 (E.cube 1))

/-- The optional truncation stage of `basic.Octahedron`: second percent
bevel at `100 * (truncation_degree / 3)` (edges meet at 33.3 percent
offset), then weld. -/
def octTruncStage (E : Engine) (truncation_degree : ℝ) (m : Mesh) : Mesh :=
  if truncation_degree > 0 then
    E.weld (E.bevelPct (100 * (truncation_degree / 3)) m)
  else m

/-- `basic.Octahedron.__init__`: beveled cube, optional truncation stage,
then `scale(size / enclosing_sphere_diameter)`. -/
def basicOctahedron (E : Engine) (size truncation_degree : ℝ) : Mesh :=
  rescaleTo esd size (octTruncStage E truncation_degree (octBase E))

/-- `basic.Icosahedron.__init__`: icosphere at subdivision 1 and radius
`size/2`. -/
def basicIcosahedron (E : Engine) (size : ℝ) : Mesh :=
  E.icoSphere 1 (size / 2)

/-- `is_edge_vertical` from `basic.Prism`: both endpoints share x and y
within `BLENDER_EPS`. -/
def isEdgeVertical (m : Mesh) (e : ℕ × ℕ) : Prop :=
  |(m.verts.getD e.2 0).x - (m.verts.getD e.1 0).x| < BLENDER_EPS ∧
  |(m.verts.getD e.2 0).y - (m.verts.getD e.1 0).y| < BLENDER_EPS

/-- The optional truncation stage of `basic.Prism`: bevel the vertical edges
at percent offset `100 * (truncation_degree * 0.5)` (edges meet at 50
percent offset), then weld. -/
def prismTruncStage (E : Engine) (truncation_degree : ℝ) (m : Mesh) : Mesh :=
  if truncation_degree > 0 then
    E.weld (E.bevelEdgesPct (100 * (truncation_degree * 0.5))
      (selEdges (isEdgeVertical m) m) m)
  else m

/-- The optional tip-smoothing stage of `basic.Prism`: bevel the vertical
edges by absolute offset `tips_smoothing_degree * dimensions.x`, then weld.
Guarded only by the degree being positive. -/
def prismTipsStage (E : Engine) (tips_smoothing_degree : ℝ)
    (smoothing_bevel_segments : ℕ) (m : Mesh) : Mesh :=
  if tips_smoothing_degree > 0 then
    E.weld (E.bevelEdgesWidth (tips_smoothing_degree * (dims m).x)
      smoothing_bevel_segments (selEdges (isEdgeVertical m) m) m)
  else m

/-- The optional edge-smoothing stage of `basic.Prism`: bevel the
non-vertical edges by absolute offset `edges_smoothing_degree *
dimensions.z`, then weld.  Guarded only by the degree being positive. -/
def prismEdgesStage (E : Engine) (edges_smoothing_degree : ℝ)
    (smoothing_bevel_segments : ℕ) (m : Mesh) : Mesh :=
  if edges_smoothing_degree > 0 then
    E.weld (E.bevelEdgesWidth (edges_smoothing_degree * (dims m).z)
      smoothing_bevel_segments (selEdges (fun e => ¬ isEdgeVertical m e) m) m)
  else m

/-- `basic.Prism` before its final rescale: n-sided cylinder primitive, then
the three optional stages. -/
def prismPre (E : Engine) (n_sides : ℕ) (size height truncation_degree
    tips_smoothing_degree edges_smoothing_degree : ℝ)
    (smoothing_bevel_segments : ℕ) : Mesh :=
  prismEdgesStage E edges_smoothing_degree smoothing_bevel_segments
    (prismTipsStage E tips_smoothing_degree smoothing_bevel_segments
      (prismTruncStage E truncation_degree
        (E.cylinder n_sides (size / 2) height)))

/-- `basic.Prism.__init__`: the staged construction followed by
`scale(size / hypot(dimensions.x, dimensions.y))`. -/
def basicPrism (E : Engine) (n_sides : ℕ) (size height truncation_degree
    tips_smoothing_degree edges_smoothing_degree : ℝ)
    (smoothing_bevel_segments : ℕ) : Mesh :=
  rescaleTo hypotXY size
    (prismPre E n_sides size height truncation_degree tips_smoothing_degree
      edges_smoothing_degree smoothing_bevel_segments)

/-- `basic.Bipyramid` before the optional tip truncation: n-sided circle,
extrude all vertices up by `height/2` and collapse the extruded ring to the
axis, repeat downward from the vertices with `z < BLENDER_EPS`, then weld. -/
def bipyramidBase (E : Engine) (n_sides : ℕ) (diameter height : ℝ) : Mesh :=
  let m0 := E.circle n_sides (diameter / 2)
  let m1 := E.extrudeCollapse (List.range m0.verts.length) (height / 2) m0
  E.weld (E.extrudeCollapse (selVerts (fun v => v.z < BLENDER_EPS) m1)
    (-(height / 2)) m1)

/-- `basic.Bipyramid.__init__`: the base bipyramid; if the tip truncation
degree is positive, select the out-of-plane vertices (`|z| > BLENDER_EPS`),
compute `bevel_width = degree * max(dimensions)`, and skip everything if the
width is below `BLENDER_EPS`, otherwise vertex-bevel at that width with one
segment and weld. -/
def basicBipyramid (E : Engine) (n_sides : ℕ)
    (diameter height tips_truncation_degree : ℝ) : Mesh :=
  let base := bipyramidBase E n_sides diameter height
  if tips_truncation_degree > 0 then
    let sel := selVerts (fun v => |v.z| > BLENDER_EPS) base
    let bevel_width := tips_truncation_degree * maxDim base
    if bevel_width < BLENDER_EPS then base
    else E.weld (E.bevelVertsWidth bevel_width 1 sel base)
  else base

/-- `BlenderObjectReference.smooth_edges`: bevel all edges with width
`degree * max(dimensions)`, skipped entirely when the width is below
`BLENDER_EPS`. -/
def smoothEdges (E : Engine) (degree : ℝ) (n_segments : ℕ) (m : Mesh) : Mesh :=
  let bevel_width := degree * maxDim m
  if bevel_width < BLENDER_EPS then m
  else E.bevelWidth bevel_width n_segments m

/-! ## Canonical shape recipes (`shapes/fcc.py`) -/

/-- `fcc.Sphere`: ellipsoid with all three dimensions equal to the
diameter. -/
def fccSphere (E : Engine) (diameter : ℝ) : Mesh :=
  ellipsoid E ⟨diameter, diameter, diameter⟩ 5

/-- `fcc.Cube`: box of the given size, edge smoothing, then
`scale(size / max(dimensions))`. -/
def fccCube (E : Engine) (size smoothing_degree : ℝ) : Mesh :=
  rescaleTo maxDim size
    (smoothEdges E smoothing_degree 3 (boxMesh E ⟨size, size, size⟩))

/-- `fcc.Rod`: spherically capped cylinder with
`middle_section_height = height - diameter`. -/
def fccRod (E : Engine) (height diameter : ℝ) : Mesh :=
  scc E diameter (height - diameter) 5

/-- `fcc.Octahedron`: untruncated basic octahedron, edge smoothing, then
`scale(size / enclosing_sphere_diameter)`. -/
def fccOctahedron (E : Engine) (size smoothing_degree : ℝ) : Mesh :=
  rescaleTo esd size (smoothEdges E smoothing_degree 3 (basicOctahedron E size 0))

/-- `fcc.TruncatedOctahedron`: truncated basic octahedron, edge smoothing,
then `scale(size / enclosing_sphere_diameter)`. -/
def fccTruncatedOctahedron (E : Engine)
    (size truncation_degree smoothing_degree : ℝ) : Mesh :=
  rescaleTo esd size
    (smoothEdges E smoothing_degree 3 (basicOctahedron E size truncation_degree))

/-- `fcc.Icosahedron`: icosphere, edge smoothing, then
`scale(size / enclosing_sphere_diameter)`. -/
def fccIcosahedron (E : Engine) (size smoothing_degree : ℝ) : Mesh :=
  rescaleTo esd size (smoothEdges E smoothing_degree 3 (basicIcosahedron E size))

/-- `fcc.Triangle`: 3-sided untruncated prism with an extra
`scale(size / hypot(dimensions.x, dimensions.y))` after construction. -/
def fccTriangle (E : Engine)
    (size height tips_smoothing_degree edges_smoothing_degree : ℝ) : Mesh :=
  rescaleTo hypotXY size
    (basicPrism E 3 size height 0 tips_smoothing_degree edges_smoothing_degree 3)

/-- `fcc.TruncatedTriangle`: 3-sided prism with truncation. -/
def fccTruncatedTriangle (E : Engine) (size height truncation_degree
    tips_smoothing_degree edges_smoothing_degree : ℝ) : Mesh :=
  basicPrism E 3 size height truncation_degree tips_smoothing_degree
    edges_smoothing_degree 3

/-- `fcc.Square`: 4-sided prism. -/
def fccSquare (E : Engine) (size height truncation_degree
    tips_smoothing_degree edges_smoothing_degree : ℝ) : Mesh :=
  basicPrism E 4 size height truncation_degree tips_smoothing_degree
    edges_smoothing_degree 3

/-- `fcc.Hexagon`: 6-sided prism. -/
def fccHexagon (E : Engine) (size height truncation_degree
    tips_smoothing_degree edges_smoothing_degree : ℝ) : Mesh :=
  basicPrism E 6 size height truncation_degree tips_smoothing_degree
    edges_smoothing_degree 3

/-- `fcc.Decahedron`: 5-sided bipyramid of height `1.547 * size / 2`, edge
smoothing, then `scale(size / hypot(dimensions.x, dimensions.y))`. -/
def fccDecahedron (E : Engine) (size smoothing_degree : ℝ) : Mesh :=
  rescaleTo hypotXY size
    (smoothEdges E smoothing_degree 3
      (basicBipyramid E 5 size (1.547 * size / 2) 0))

/-- `fcc.Bipyramid`: 5-sided bipyramid of diameter `height / 3.7321` with
tip truncation, edge smoothing, then `scale(height / dimensions.z)`. -/
def fccBipyramid (E : Engine)
    (height tips_truncation_degree smoothing_degree : ℝ) : Mesh :=
  rescaleTo zDim height
    (smoothEdges E smoothing_degree 3
      (basicBipyramid E 5 (height / 3.7321) height tips_truncation_degree))

/-! ## Randomized Parameter Sampler (`shapes/randomized/fcc.py`)

Each randomized constructor draws its parameters from documented uniform
ranges and delegates to the corresponding recipe.  The draws are passed in
explicitly: field `d1` stands for the value returned by the first
`np.random.uniform` call in the constructor (in source order), `d2` for the
second, and so on. -/

/-- Per-family uniform parameter draws. -/
structure ParamDraws where
  d1 : ℝ
  d2 : ℝ
  d3 : ℝ
  d4 : ℝ

/-- `randomized.Sphere`: no draws, default diameter 1. -/
def rSphere (E : Engine) (_p : ParamDraws) : Mesh := fccSphere E 1

/-- `randomized.Cube`: smoothing ~ U(0, 0.1). -/
def rCube (E : Engine) (p : ParamDraws) : Mesh := fccCube E 1 p.d1

/-- `randomized.Rod`: diameter ~ U(0.25, 1.0), height fixed 1. -/
def rRod (E : Engine) (p : ParamDraws) : Mesh := fccRod E 1 p.d1

/-- `randomized.Octahedron`: smoothing ~ U(0, 0.1). -/
def rOctahedron (E : Engine) (p : ParamDraws) : Mesh := fccOctahedron E 1 p.d1

/-- `randomized.TruncatedOctahedron`: truncation ~ U(0,1), smoothing ~
U(0, 0.1). -/
def rTruncatedOctahedron (E : Engine) (p : ParamDraws) : Mesh :=
  fccTruncatedOctahedron E 1 p.d1 p.d2

/-- `randomized.Icosahedron`: smoothing ~ U(0, 0.1). -/
def rIcosahedron (E : Engine) (p : ParamDraws) : Mesh := fccIcosahedron E 1 p.d1

/-- `randomized.Triangle`: height ~ U(0.1, 0.3), tip and edge smoothing ~
U(0, 0.1). -/
def rTriangle (E : Engine) (p : ParamDraws) : Mesh :=
  fccTriangle E 1 p.d1 p.d2 p.d3

/-- `randomized.TruncatedTriangle`: height ~ U(0.1, 0.3), truncation ~
U(0, 1), tip and edge smoothing ~ U(0, 0.1). -/
def rTruncatedTriangle (E : Engine) (p : ParamDraws) : Mesh :=
  fccTruncatedTriangle E 1 p.d1 p.d2 p.d3 p.d4

/-- `randomized.Square`: height ~ U(0.1, 0.3), truncation fixed 0, tip and
edge smoothing ~ U(0, 0.1). -/
def rSquare (E : Engine) (p : ParamDraws) : Mesh :=
  fccSquare E 1 p.d1 0 p.d2 p.d3

/-- `randomized.Hexagon`: height ~ U(0.1, 0.3), truncation fixed 0, tip and
edge smoothing ~ U(0, 0.1). -/
def rHexagon (E : Engine) (p : ParamDraws) : Mesh :=
  fccHexagon E 1 p.d1 0 p.d2 p.d3

/-- `randomized.Decahedron`: smoothing ~ U(0, 0.1). -/
def rDecahedron (E : Engine) (p : ParamDraws) : Mesh := fccDecahedron E 1 p.d1

/-- `randomized.Bipyramid`: a single draw ~ U(0, 0.1) used as both the tip
truncation and the smoothing degree. -/
def rBipyramid (E : Engine) (p : ParamDraws) : Mesh := fccBipyramid E 1 p.d1 p.d1

/-- `ALL_SHAPES` from `shapes/randomized/fcc.py`. -/
def ALL_SHAPES : List (Engine → ParamDraws → Mesh) :=
  [rSphere, rCube, rRod, rOctahedron, rTruncatedOctahedron, rIcosahedron,
   rTriangle, rTruncatedTriangle, rSquare, rHexagon, rDecahedron, rBipyramid]

/-- `CORE_SHELL_SUITABLE_SHAPES` from `shapes/randomized/fcc.py`. -/
def CORE_SHELL_SUITABLE_SHAPES : List (Engine → ParamDraws → Mesh) :=
  [rSphere, rCube, rRod, rOctahedron, rTruncatedOctahedron, rIcosahedron,
   rDecahedron, rBipyramid]

/-- Modelled from the spec wording of claim C5 ("builds via the Library with
default (non-random) parameters"): each pool family built through the
`fcc.py` recipe with its default constructor arguments. -/
def ALL_SHAPES_DEFAULT : List (Engine → Mesh) :=
  [fun E => fccSphere E 1, fun E => fccCube E 1 0, fun E => fccRod E 1 0.5,
   fun E => fccOctahedron E 1 0, fun E => fccTruncatedOctahedron E 1 0 0,
   fun E => fccIcosahedron E 1 0, fun E => fccTriangle E 1 0.2 0 0,
   fun E => fccTruncatedTriangle E 1 0.2 0.5 0 0,
   fun E => fccSquare E 1 0.2 0 0 0, fun E => fccHexagon E 1 0.2 0.5 0 0,
   fun E => fccDecahedron E 1 0, fun E => fccBipyramid E 1 0 0]

/-! ## Placement Engine (`BlenderObjectReference.position_randomly`) -/

/-- A containment box: the six scalars
`(x_min, x_max, y_min, y_max, z_min, z_max)`. -/
structure Box6 where
  xMin : ℝ
  xMax : ℝ
  yMin : ℝ
  yMax : ℝ
  zMin : ℝ
  zMax : ℝ

/-- `[0.95 * x for x in extent]` (generally: every bound times c). -/
def scaleBox (c : ℝ) (b : Box6) : Box6 :=
  ⟨c * b.xMin, c * b.xMax, c * b.yMin, c * b.yMax, c * b.zMin, c * b.zMax⟩

/-- `min_shift = box_min - (location - dimensions/2)` per axis. -/
def minShift (m : Mesh) (b : Box6) : Vec3 :=
  Vec3.mk b.xMin b.yMin b.zMin - (location m - (1 / 2 : ℝ) • dims m)

/-- `max_shift = box_max - (location + dimensions/2)` per axis. -/
def maxShift (m : Mesh) (b : Box6) : Vec3 :=
  Vec3.mk b.xMax b.yMax b.zMax - (location m + (1 / 2 : ℝ) • dims m)

/-- `cylinder_radius = max(y_max - y_min, z_max - z_min)`. -/
def cylinderRadius (b : Box6) : ℝ := max (b.yMax - b.yMin) (b.zMax - b.zMin)

/-- `point_fits_in_cylinder`: the (y,z) projection lies strictly inside the
circle of `cylinderRadius` about the box (y,z) center.  The source compares
`(point.yz - cylinder_axis).length < cylinder_radius`; this is the
equivalent squared comparison (the radius is nonnegative for any well-formed
box). -/
def pointFitsInCylinder (b : Box6) (p : Vec3) : Prop :=
  (p.y - (b.yMin + b.yMax) / 2) ^ 2 + (p.z - (b.zMin + b.zMax) / 2) ^ 2 <
    cylinderRadius b ^ 2

/-- `objects_fits_in_cylinder`: every post-shift vertex fits. -/
def objectFitsInCylinder (b : Box6) (m : Mesh) (shift : Vec3) : Prop :=
  ∀ v ∈ m.verts, pointFitsInCylinder b (v + shift)

/-- The rejection loop of `position_randomly`, fed by a stream of uniform
draws from `[min_shift, max_shift]`: the first draw passing the cylinder
check (any draw when `fit_in_cylinder` is false).  `none` models exhausting
the stream; the source would keep drawing forever. -/
def chooseShift (b : Box6) (m : Mesh) (fit_in_cylinder : Bool) :
    List Vec3 → Option Vec3
  | [] => none
  | d :: ds =>
      if fit_in_cylinder = true → objectFitsInCylinder b m d then some d
      else chooseShift b m fit_in_cylinder ds

/-- `position_randomly`: the accepted shift is applied as a baked
translation and returned. -/
def positionRandomly (m : Mesh) (b : Box6) (fit_in_cylinder : Bool)
    (draws : List Vec3) : Option (Vec3 × Mesh) :=
  match chooseShift b m fit_in_cylinder draws with
  | none => none
  | some s => some (s, translateMesh s m)

/-! ## Scene Composer (`scene_building.py`) -/

/-- Fallback builder for out-of-range pool indices (never reached for the
indices `random.choice` draws). -/
def defaultBuilder : Engine → ParamDraws → Mesh := fun _ _ => ⟨[], []⟩

/-- `Scene.add_random_shape`, with the randomness passed in: `choiceIdx` is
the index `random.choice` draws from the pool, `p` the chosen family's
parameter draws, `q` the orientation draw, `scale_factor` the U(0.75, 0.9)
draw, `draws` the placement shift draws. -/
def addRandomShape (E : Engine) (extent : Box6) (choiceIdx : ℕ)
    (p : ParamDraws) (q : Quat) (scale_factor : ℝ) (draws : List Vec3) :
    Option Mesh :=
  let shape := (ALL_SHAPES.getD choiceIdx defaultBuilder) E p
  let s1 := rotateMeshQ q shape
  let s2 := smulMesh (scale_factor / maxDim s1) s1
  match positionRandomly s2 (scaleBox 0.95 extent) true draws with
  | none => none
  | some x => some x.2

/-- `Scene.add_random_core_shell_shape`, with the randomness passed in.
The shell is built, rotated by `q`, scaled so its max dimension is the
U(0.75, 0.9) draw, and placed (recording the shift); the core is built,
rotated by the *same* `q`, scaled by
`core_scale_factor * shell.esd / core.esd` with the U(0.5, 0.9) draw,
translated by the same shift; the core is duplicated before any boolean
operation, the core becomes core ∩ shell, the shell becomes
shell − core_copy, and the pair is returned. -/
def addRandomCoreShellShape (E : Engine) (extent : Box6)
    (shellIdx coreIdx : ℕ) (pShell pCore : ParamDraws) (q : Quat)
    (shell_scale_factor core_scale_factor : ℝ) (draws : List Vec3) :
    Option (Mesh × Mesh) :=
  let shell0 := (CORE_SHELL_SUITABLE_SHAPES.getD shellIdx defaultBuilder) E pShell
  let shell1 := rotateMeshQ q shell0
  let shell2 := smulMesh (shell_scale_factor / maxDim shell1) shell1
  match positionRandomly shell2 (scaleBox 0.95 extent) true draws with
  | none => none
  | some x =>
      let shift := x.1
      let shell3 := x.2
      let core0 := (CORE_SHELL_SUITABLE_SHAPES.getD coreIdx defaultBuilder) E pCore
      let core1 := rotateMeshQ q core0
      let core2 := smulMesh (core_scale_factor * esd shell3 / esd core1) core1
      let core3 := translateMesh shift core2
      let core_copy := core3
      let core4 := E.boolean .intersect core3 shell3
      let shell4 := E.boolean .difference shell3 core_copy
      some (core4, shell4)

/-! ## Rescale lemmas: the final `scale(target / metric)` step pins the
metric to the target -/

theorem rescaleTo_maxDim (target : ℝ) (m : Mesh) (ht : 0 ≤ target)
    (hm : 0 < maxDim m) : maxDim (rescaleTo maxDim target m) = target := by
  rw [rescaleTo, maxDim_smul _ (div_nonneg ht hm.le), div_mul_cancel₀ _ hm.ne']

theorem rescaleTo_esd (target : ℝ) (m : Mesh) (ht : 0 ≤ target)
    (hm : 0 < esd m) : esd (rescaleTo esd target m) = target := by
  rw [rescaleTo, esd_smul _ (div_nonneg ht hm.le), div_mul_cancel₀ _ hm.ne']

theorem rescaleTo_zDim (target : ℝ) (m : Mesh) (ht : 0 ≤ target)
    (hm : 0 < zDim m) : zDim (rescaleTo zDim target m) = target := by
  rw [rescaleTo, zDim_smul _ (div_nonneg ht hm.le), div_mul_cancel₀ _ hm.ne']

theorem rescaleTo_hypotXY (target : ℝ) (m : Mesh) (ht : 0 ≤ target)
    (hm : 0 < hypotXY m) : hypotXY (rescaleTo hypotXY target m) = target := by
  rw [rescaleTo, hypotXY_smul _ (div_nonneg ht hm.le), div_mul_cancel₀ _ hm.ne']

theorem chooseShift_sound (b : Box6) (m : Mesh) (fc : Bool) :
    ∀ (draws : List Vec3) (s : Vec3), chooseShift b m fc draws = some s →
      s ∈ draws ∧ (fc = true → objectFitsInCylinder b m s) := by
  intro draws
  induction draws with
  | nil => intro s h; exact absurd h (by rw [chooseShift]; exact Option.noConfusion)
  | cons d ds ih =>
      intro s h
      rw [chooseShift] at h
      split_ifs at h with hacc
      · rw [Option.some.injEq] at h
        subst h
        exact ⟨List.mem_cons_self d ds, hacc⟩
      · rcases ih s h with ⟨h1, h2⟩
        exact ⟨List.mem_cons_of_mem d h1, h2⟩

/-! ## Stage-reduction helper lemmas -/

theorem smoothEdges_zero (E : Engine) (segs : ℕ) (m : Mesh) :
    smoothEdges E 0 segs m = m := by
  rw [smoothEdges]
  rw [if_pos]
  rw [zero_mul]
  norm_num [BLENDER_EPS]

theorem octTruncStage_zero (E : Engine) (m : Mesh) : octTruncStage E 0 m = m := by
  rw [octTruncStage, if_neg (lt_irrefl 0)]

theorem prismTruncStage_zero (E : Engine) (m : Mesh) :
    prismTruncStage E 0 m = m := by
  rw [prismTruncStage, if_neg (lt_irrefl 0)]

theorem prismTipsStage_zero (E : Engine) (segs : ℕ) (m : Mesh) :
    prismTipsStage E 0 segs m = m := by
  rw [prismTipsStage, if_neg (lt_irrefl 0)]

theorem prismEdgesStage_zero (E : Engine) (segs : ℕ) (m : Mesh) :
    prismEdgesStage E 0 segs m = m := by
  rw [prismEdgesStage, if_neg (lt_irrefl 0)]

theorem prismPre_zero (E : Engine) (n segs : ℕ) (s h : ℝ) :
    prismPre E n s h 0 0 0 segs = E.cylinder n (s / 2) h := by
  rw [prismPre, prismTruncStage_zero, prismTipsStage_zero, prismEdgesStage_zero]

theorem basicBipyramid_zero (E : Engine) (n : ℕ) (d hgt : ℝ) :
    basicBipyramid E n d hgt 0 = bipyramidBase E n d hgt := by
  rw [basicBipyramid, if_neg (lt_irrefl 0)]

theorem compScale_one (m : Mesh) : compScale ⟨1, 1, 1⟩ m = m := by
  cases m with
  | mk vs es =>
      simp only [compScale, Mesh.mk.injEq, and_true]
      exact List.map_id'' (fun v => by cases v; rw [Vec3.ext_iff]; norm_num) vs

theorem smulMesh_length (c : ℝ) (m : Mesh) :
    (smulMesh c m).verts.length = m.verts.length := by
  simp [smulMesh]

/-- `location - dimensions/2` is the bounding-box minimum corner. -/
theorem location_sub_half (m : Mesh) :
    location m - (1 / 2 : ℝ) • dims m = bboxMin m := by
  rw [location, Vec3.ext_iff]
  refine ⟨?_, ?_, ?_⟩ <;> simp

/-- `location + dimensions/2` is the bounding-box maximum corner. -/
theorem location_add_half (m : Mesh) :
    location m + (1 / 2 : ℝ) • dims m = bboxMax m := by
  rw [location, dims, Vec3.ext_iff]
  refine ⟨?_, ?_, ?_⟩ <;> simp <;> ring

/-! ## Concrete meshes and a concrete Mesh Engine instance, used to evaluate
the recipes on explicit inputs -/

/-- A two-vertex mesh with bounding box `[0,2]^3`. -/
def Mconst : Mesh := ⟨[⟨0, 0, 0⟩, ⟨2, 2, 2⟩], [(0, 1)]⟩

/-- A single-vertex mesh. -/
def Mpoint : Mesh := ⟨[⟨1, 0, 0⟩], []⟩

/-- A concrete Mesh Engine: primitives and object-level modifiers return
`Mconst`, absolute-width bevels return `Mpoint`, welding is the identity,
extrusion appends moved copies of the selected vertices, booleans return
their first operand. -/
def Econst : Engine where
  cube := fun _ => Mconst
  icoSphere := fun _ _ => Mconst
  cylinder := fun _ _ _ => Mconst
  circle := fun _ _ => Mconst
  bevelPct := fun _ _ => Mconst
  bevelWidth := fun _ _ _ => Mpoint
  bevelEdgesPct := fun _ _ _ => Mconst
  bevelEdgesWidth := fun _ _ _ _ => Mpoint
  bevelVertsWidth := fun _ _ _ _ => Mconst
  weld := fun m => m
  extrude := fun sel v m => ⟨m.verts ++ sel.map (fun i => m.verts.getD i 0 + v), m.edges⟩
  extrudeCollapse := fun _ _ _ => Mconst
  boolean := fun _ a _ => a

theorem dims_Mconst : dims Mconst = ⟨2, 2, 2⟩ := by
  rw [dims, bboxMax, bboxMin, Vec3.ext_iff]
  norm_num [Mconst, listMin, listMax, min_def, max_def]

theorem maxDim_Mconst : maxDim Mconst = 2 := by
  rw [maxDim, dims_Mconst]
  norm_num [max_def]

theorem zDim_Mconst : zDim Mconst = 2 := by
  rw [zDim, dims_Mconst]

theorem hypotXY_Mconst_pos : 0 < hypotXY Mconst := by
  rw [hypotXY, dims_Mconst]
  rw [Real.sqrt_pos]
  norm_num

theorem location_Mconst : location Mconst = ⟨1, 1, 1⟩ := by
  rw [location, dims, bboxMax, bboxMin, Vec3.ext_iff]
  norm_num [Mconst, listMin, listMax, min_def, max_def]

theorem esd_Mconst_pos : 0 < esd Mconst := by
  rw [esd, location_Mconst]
  have hsub1 : (⟨0, 0, 0⟩ : Vec3) - ⟨1, 1, 1⟩ = ⟨-1, -1, -1⟩ := by
    rw [Vec3.ext_iff]; norm_num
  have hsub2 : (⟨2, 2, 2⟩ : Vec3) - ⟨1, 1, 1⟩ = ⟨1, 1, 1⟩ := by
    rw [Vec3.ext_iff]; norm_num
  have h1 : Mconst.verts.map (fun v => vlen (v - ⟨1, 1, 1⟩))
      = [vlen ⟨-1, -1, -1⟩, vlen ⟨1, 1, 1⟩] := by
    rw [show Mconst.verts = [⟨0, 0, 0⟩, ⟨2, 2, 2⟩] from rfl, List.map_cons,
      List.map_cons, List.map_nil, hsub1, hsub2]
  rw [h1]
  have h2 : listMax [vlen ⟨-1, -1, -1⟩, vlen ⟨1, 1, 1⟩]
      = max (vlen ⟨-1, -1, -1⟩) (vlen ⟨1, 1, 1⟩) := by
    simp [listMax]
  rw [h2]
  have h3 : 0 < vlen (⟨-1, -1, -1⟩ : Vec3) := by
    rw [vlen, Real.sqrt_pos]
    norm_num
  have h4 := le_max_left (vlen ⟨-1, -1, -1⟩) (vlen ⟨1, 1, 1⟩)
  linarith

theorem maxDim_Mpoint : maxDim Mpoint = 0 := by
  rw [maxDim, dims, bboxMax, bboxMin]
  norm_num [Mpoint, listMin, listMax, max_def]

theorem octBase_Econst : octBase Econst = Mconst := rfl

theorem boxMesh_Econst_one : boxMesh Econst ⟨1, 1, 1⟩ = Mconst := by
  rw [boxMesh]
  exact compScale_one _

theorem Vec3.add_zero' (a : Vec3) : a + 0 = a := by
  cases a; rw [Vec3.ext_iff]; simp

/-- The net mesh effect of `scale(s)` on an object whose pending transform
is the identity: every vertex is multiplied by `s`. -/
theorem scaleO_mesh_of_identity (msh : Mesh) (s : ℝ) :
    (scaleO (Obj.mk msh 0 idQuat ⟨1, 1, 1⟩) (ScaleArg.scalar s)).mesh
      = smulMesh s msh := by
  have hb : bakeVert (Obj.mk msh 0 idQuat ⟨s, s, s⟩) = fun v => s • v := by
    funext v
    rw [bakeVert, quatRot_id, Vec3.add_zero']
    rfl
  simp only [scaleO, applyAllTransforms, broadcastScale, smulMesh]
  rw [hb]

/-- Claim C9: after every translate, rotate, or scale operation on a
Geometric Object, the transform is baked into the vertex coordinates
immediately and the object's local transform state (location, rotation,
scale) is back at identity. -/
theorem claim_C9_transforms_baked (o : Obj) (t : Vec3) (q : Quat) (s : ℝ)
    (u : Vec3) (hid : pendingIdentity o) :
    pendingIdentity (translateO o t) ∧ pendingIdentity (rotateO o q) ∧
    pendingIdentity (scaleO o (ScaleArg.scalar s)) ∧
    pendingIdentity (scaleO o (ScaleArg.vector u)) ∧
    (translateO o t).mesh = translateMesh t o.mesh ∧
    (rotateO o q).mesh = rotateMeshQ q o.mesh ∧
    (scaleO o (ScaleArg.scalar s)).mesh = smulMesh s o.mesh ∧
    (scaleO o (ScaleArg.vector u)).mesh = compScale u o.mesh := by
  obtain ⟨msh, lc, rt, sc⟩ := o
  obtain ⟨h1, h2, h3⟩ := hid
  have h1' : lc = 0 := h1
  have h2' : rt = idQuat := h2
  have h3' : sc = ⟨1, 1, 1⟩ := h3
  subst h1'; subst h2'; subst h3'
  refine ⟨⟨rfl, rfl, rfl⟩, ⟨rfl, rfl, rfl⟩, ⟨rfl, rfl, rfl⟩, ⟨rfl, rfl, rfl⟩,
    ?_, ?_, scaleO_mesh_of_identity msh s, ?_⟩
  · have hb : bakeVert (Obj.mk msh t idQuat ⟨1, 1, 1⟩) = fun v => v + t := by
      funext v
      rw [bakeVert]
      simp only [one_mul]
      rw [quatRot_id]
    simp only [translateO, applyAllTransforms, translateMesh]
    rw [hb]
  · have hb : bakeVert (Obj.mk msh 0 q ⟨1, 1, 1⟩) = quatRot q := by
      funext v
      rw [bakeVert]
      simp only [one_mul]
      rw [Vec3.add_zero']
    simp only [rotateO, applyAllTransforms, rotateMeshQ]
    rw [hb]
  · have hb : bakeVert (Obj.mk msh 0 idQuat u)
        = fun v => (⟨u.x * v.x, u.y * v.y, u.z * v.z⟩ : Vec3) := by
      funext v
      rw [bakeVert, quatRot_id, Vec3.add_zero']
    simp only [scaleO, applyAllTransforms, broadcastScale, compScale]
    rw [hb]

/-- A concrete object with identity pending transform, for instantiating
the transform-layer theorems. -/
def objW : Obj := ⟨⟨[⟨1, 2, 3⟩], []⟩, 0, idQuat, ⟨1, 1, 1⟩⟩

/-- Witness for C9 at a concrete object, translation, rotation and scale. -/
theorem claim_C9_witness :
    pendingIdentity objW ∧
    (pendingIdentity (translateO objW ⟨1, 0, 0⟩) ∧
     pendingIdentity (rotateO objW idQuat) ∧
     pendingIdentity (scaleO objW (ScaleArg.scalar 2)) ∧
     pendingIdentity (scaleO objW (ScaleArg.vector ⟨1, 2, 1⟩)) ∧
     (translateO objW ⟨1, 0, 0⟩).mesh = translateMesh ⟨1, 0, 0⟩ objW.mesh ∧
     (rotateO objW idQuat).mesh = rotateMeshQ idQuat objW.mesh ∧
     (scaleO objW (ScaleArg.scalar 2)).mesh = smulMesh 2 objW.mesh ∧
     (scaleO objW (ScaleArg.vector ⟨1, 2, 1⟩)).mesh = compScale ⟨1, 2, 1⟩ objW.mesh) :=
  ⟨⟨rfl, rfl, rfl⟩,
   claim_C9_transforms_baked objW ⟨1, 0, 0⟩ idQuat 2 ⟨1, 2, 1⟩ ⟨rfl, rfl, rfl⟩⟩

/-- Claim C10 (amended): for every scalar `s`, `scale(s)` broadcasts `s` to
all three axes (equivalent to `scale((s,s,s))`) and multiplies every vertex
coordinate isotropically by `s`; for `s ≥ 0` (the case the final-rescale
steps rely on) the dimensions and the enclosing-sphere diameter are each
multiplied by `s`. -/
theorem claim_C10_isotropic_scale (o : Obj) (s : ℝ) (hid : pendingIdentity o) :
    scaleO o (ScaleArg.scalar s) = scaleO o (ScaleArg.vector ⟨s, s, s⟩) ∧
    (scaleO o (ScaleArg.scalar s)).mesh = smulMesh s o.mesh ∧
    (0 ≤ s → dims (scaleO o (ScaleArg.scalar s)).mesh = s • dims o.mesh) ∧
    (0 ≤ s → esd (scaleO o (ScaleArg.scalar s)).mesh = s * esd o.mesh) := by
  obtain ⟨msh, lc, rt, sc⟩ := o
  obtain ⟨h1, h2, h3⟩ := hid
  have h1' : lc = 0 := h1
  have h2' : rt = idQuat := h2
  have h3' : sc = ⟨1, 1, 1⟩ := h3
  subst h1'; subst h2'; subst h3'
  have hmesh := scaleO_mesh_of_identity msh s
  exact ⟨rfl, hmesh, fun hs => by rw [hmesh]; exact dims_smul s hs msh,
    fun hs => by rw [hmesh]; exact esd_smul s hs msh⟩

/-- Witness for C10 at a concrete object, instantiated at the scale factor
2 and at the negative scale factor -1 (where the unconditional broadcast
and vertex-multiplication conjuncts still apply). -/
theorem claim_C10_witness :
    pendingIdentity objW ∧
    (scaleO objW (ScaleArg.scalar 2) = scaleO objW (ScaleArg.vector ⟨2, 2, 2⟩) ∧
     (scaleO objW (ScaleArg.scalar 2)).mesh = smulMesh 2 objW.mesh ∧
     ((0 : ℝ) ≤ 2 → dims (scaleO objW (ScaleArg.scalar 2)).mesh = (2 : ℝ) • dims objW.mesh) ∧
     ((0 : ℝ) ≤ 2 → esd (scaleO objW (ScaleArg.scalar 2)).mesh = 2 * esd objW.mesh)) ∧
    (scaleO objW (ScaleArg.scalar (-1)) = scaleO objW (ScaleArg.vector ⟨-1, -1, -1⟩) ∧
     (scaleO objW (ScaleArg.scalar (-1))).mesh = smulMesh (-1) objW.mesh ∧
     ((0 : ℝ) ≤ -1 → dims (scaleO objW (ScaleArg.scalar (-1))).mesh = (-1 : ℝ) • dims objW.mesh) ∧
     ((0 : ℝ) ≤ -1 → esd (scaleO objW (ScaleArg.scalar (-1))).mesh = -1 * esd objW.mesh)) :=
  ⟨⟨rfl, rfl, rfl⟩,
   claim_C10_isotropic_scale objW 2 ⟨rfl, rfl, rfl⟩,
   claim_C10_isotropic_scale objW (-1) ⟨rfl, rfl, rfl⟩⟩

/-- Counterexample to C10 as stated: for the negative scalar `s = -1` the
dimensions are *not* multiplied by `s` (they are multiplied by `|s|`). -/
theorem claim_C10_counterexample :
    dims (scaleO (Obj.mk ⟨[⟨0, 0, 0⟩, ⟨1, 0, 0⟩], []⟩ 0 idQuat ⟨1, 1, 1⟩)
        (ScaleArg.scalar (-1))).mesh
      ≠ (-1 : ℝ) • dims (⟨[⟨0, 0, 0⟩, ⟨1, 0, 0⟩], []⟩ : Mesh) := by
  intro h
  rw [scaleO_mesh_of_identity] at h
  have hx := congrArg Vec3.x h
  norm_num [smulMesh, dims, bboxMax, bboxMin, listMin, listMax, min_def,
    max_def] at hx

/-- Claim C8: constructing with truncation degree 0 and smoothing degrees 0
performs no bevel and no weld for those steps and produces geometry
identical to the untruncated, unsmoothed base shape; in particular
`Square(size=1.0, height=0.2, truncation_degree=0)` is exactly the rescaled
untruncated 4-gon cylinder primitive. -/
theorem claim_C8_zero_degrees (E : Engine) (s h d hgt : ℝ) (n segs : ℕ)
    (m : Mesh) :
    basicOctahedron E s 0 = rescaleTo esd s (octBase E) ∧
    smoothEdges E 0 segs m = m ∧
    prismPre E n s h 0 0 0 segs = E.cylinder n (s / 2) h ∧
    basicPrism E n s h 0 0 0 segs = rescaleTo hypotXY s (E.cylinder n (s / 2) h) ∧
    basicBipyramid E n d hgt 0 = bipyramidBase E n d hgt ∧
    fccTruncatedOctahedron E s 0 0 = rescaleTo esd s (basicOctahedron E s 0) ∧
    fccSquare E 1 0.2 0 0 0 = rescaleTo hypotXY 1 (E.cylinder 4 (1 / 2) 0.2) := by
  refine ⟨?_, smoothEdges_zero E segs m, prismPre_zero E n segs s h, ?_,
    basicBipyramid_zero E n d hgt, ?_, ?_⟩
  · rw [basicOctahedron, octTruncStage_zero]
  · rw [basicPrism, prismPre_zero]
  · rw [fccTruncatedOctahedron, smoothEdges_zero]
  · rw [fccSquare, basicPrism, prismPre_zero]

/-- Claim C7: when the truncation degree is positive, the Octahedron recipe
applies its second bevel at percent offset `100 * truncation/3` followed by
a duplicate-vertex weld, and the Prism recipe bevels exactly its vertical
edges (both endpoints sharing x and y within tolerance 1e-5) at percent
offset `100 * truncation/2` followed by a weld. -/
theorem claim_C7_truncation_offsets (E : Engine) (s tr : ℝ) (m : Mesh)
    (htr : 0 < tr) :
    basicOctahedron E s tr
      = rescaleTo esd s (E.weld (E.bevelPct (100 * (tr / 3)) (octBase E))) ∧
    prismTruncStage E tr m
      = E.weld (E.bevelEdgesPct (100 * tr / 2) (selEdges (isEdgeVertical m) m) m) ∧
    (∀ e, e ∈ selEdges (isEdgeVertical m) m ↔ e ∈ m.edges ∧
      |(m.verts.getD e.2 0).x - (m.verts.getD e.1 0).x| < 1e-5 ∧
      |(m.verts.getD e.2 0).y - (m.verts.getD e.1 0).y| < 1e-5) := by
  refine ⟨?_, ?_, ?_⟩
  · rw [basicOctahedron, octTruncStage, if_pos htr]
  · rw [prismTruncStage, if_pos htr,
      show (100 : ℝ) * (tr * 0.5) = 100 * tr / 2 by ring]
  · intro e
    simp only [selEdges, mem_filterP, isEdgeVertical, BLENDER_EPS]

/-- Witness for C7 at a concrete engine, size, truncation degree and mesh. -/
theorem claim_C7_witness :
    (0 : ℝ) < 1 ∧
    (basicOctahedron Econst 1 1
       = rescaleTo esd 1 (Econst.weld (Econst.bevelPct (100 * (1 / 3)) (octBase Econst))) ∧
     prismTruncStage Econst 1 Mconst
       = Econst.weld (Econst.bevelEdgesPct (100 * 1 / 2)
           (selEdges (isEdgeVertical Mconst) Mconst) Mconst) ∧
     (∀ e, e ∈ selEdges (isEdgeVertical Mconst) Mconst ↔ e ∈ Mconst.edges ∧
       |(Mconst.verts.getD e.2 0).x - (Mconst.verts.getD e.1 0).x| < 1e-5 ∧
       |(Mconst.verts.getD e.2 0).y - (Mconst.verts.getD e.1 0).y| < 1e-5)) :=
  ⟨by norm_num, claim_C7_truncation_offsets Econst 1 1 Mconst (by norm_num)⟩

/-- Claim C4 (amended): the shared edge smoothing and the Bipyramid tip
truncation pre-check their computed bevel width against the epsilon
tolerance 1e-5 and skip the operation entirely — leaving the mesh
unchanged — when the width is below it; the Prism tip-smoothing and
edge-smoothing steps are guarded only by their degree being positive and
invoke the Engine whenever the degree is positive, regardless of the
computed width. -/
theorem claim_C4_epsilon_guards (E : Engine) (deg tr tips edg d hgt : ℝ)
    (n segs : ℕ) (m mt me : Mesh)
    (h1 : deg * maxDim m < BLENDER_EPS)
    (h2 : tr * maxDim (bipyramidBase E n d hgt) < BLENDER_EPS)
    (h3 : 0 < tips) (h4 : 0 < edg) :
    smoothEdges E deg segs m = m ∧
    basicBipyramid E n d hgt tr = bipyramidBase E n d hgt ∧
    prismTipsStage E tips segs mt
      = E.weld (E.bevelEdgesWidth (tips * (dims mt).x) segs
          (selEdges (isEdgeVertical mt) mt) mt) ∧
    prismEdgesStage E edg segs me
      = E.weld (E.bevelEdgesWidth (edg * (dims me).z) segs
          (selEdges (fun e => ¬ isEdgeVertical me e) me) me) := by
  refine ⟨?_, ?_, ?_, ?_⟩
  · simp only [smoothEdges]
    rw [if_pos h1]
  · by_cases htr : tr > 0
    · simp only [basicBipyramid]
      rw [if_pos htr, if_pos h2]
    · simp only [basicBipyramid]
      rw [if_neg htr]
  · rw [prismTipsStage, if_pos h3]
  · rw [prismEdgesStage, if_pos h4]

/-- Witness for C4 at a concrete engine, degrees and meshes. -/
theorem claim_C4_witness :
    (0 : ℝ) * maxDim Mconst < BLENDER_EPS ∧
    (0 : ℝ) * maxDim (bipyramidBase Econst 5 1 1) < BLENDER_EPS ∧
    (0 : ℝ) < 1e-9 ∧
    (smoothEdges Econst 0 3 Mconst = Mconst ∧
     basicBipyramid Econst 5 1 1 0 = bipyramidBase Econst 5 1 1 ∧
     prismTipsStage Econst 1e-9 3 Mconst
       = Econst.weld (Econst.bevelEdgesWidth ((1e-9 : ℝ) * (dims Mconst).x) 3
           (selEdges (isEdgeVertical Mconst) Mconst) Mconst) ∧
     prismEdgesStage Econst 1e-9 3 Mconst
       = Econst.weld (Econst.bevelEdgesWidth ((1e-9 : ℝ) * (dims Mconst).z) 3
           (selEdges (fun e => ¬ isEdgeVertical Mconst e) Mconst) Mconst)) :=
  ⟨by rw [zero_mul]; norm_num [BLENDER_EPS],
   by rw [zero_mul]; norm_num [BLENDER_EPS],
   by norm_num,
   claim_C4_epsilon_guards Econst 0 0 1e-9 1e-9 1 1 5 3 Mconst Mconst Mconst
     (by rw [zero_mul]; norm_num [BLENDER_EPS])
     (by rw [zero_mul]; norm_num [BLENDER_EPS])
     (by norm_num) (by norm_num)⟩

/-- Counterexample to C4 as stated: the Prism tip-smoothing step computes a
bevel width below the 1e-5 tolerance yet still invokes the Engine and
changes the mesh, instead of skipping the operation. -/
theorem claim_C4_counterexample :
    (1e-9 : ℝ) * (dims Mconst).x < BLENDER_EPS ∧
    prismTipsStage Econst 1e-9 3 Mconst ≠ Mconst := by
  constructor
  · rw [show (dims Mconst).x = 2 from by rw [dims_Mconst]]
    norm_num [BLENDER_EPS]
  · intro h
    rw [prismTipsStage, if_pos (by norm_num : (1e-9 : ℝ) > 0)] at h
    have hlen := congrArg (fun mm => mm.verts.length) h
    simp [Econst, Mpoint, Mconst] at hlen

/-- Semantics of the edit-mode translate: vertex `i` moves by `t` exactly
when it is selected. -/
theorem translateSel_getElem (sel : List ℕ) (t : Vec3) (m : Mesh) (i : ℕ) :
    (translateSel sel t m).verts[i]?
      = (m.verts[i]?).map (fun v => if i ∈ sel then v + t else v) := by
  simp only [translateSel]
  rw [List.getElem?_map, List.getElem?_enum, Option.map_map]
  rfl

theorem translateSel_length (sel : List ℕ) (t : Vec3) (m : Mesh) :
    (translateSel sel t m).verts.length = m.verts.length := by
  simp [translateSel, List.enum_length]

/-- Membership in a vertex selection. -/
theorem mem_selVerts (p : Vec3 → Prop) (m : Mesh) (i : ℕ) :
    i ∈ selVerts p m ↔ i < m.verts.length ∧ p (m.verts.getD i 0) := by
  rw [selVerts, mem_filterP, List.mem_range]

/-- Modelled from the spec wording of claim C6 (to compare with the source
recipe): the same construction, but extruding the vertices with
`z > +BLENDER_EPS` and translating the vertices with `z < -BLENDER_EPS`. -/
def sccSpec (E : Engine) (diameter middle_section_height : ℝ)
    (subdivisions : ℕ) : Mesh :=
  let m0 := ellipsoid E ⟨diameter, diameter, diameter⟩ subdivisions
  let m1 := E.extrude (selVerts (fun v => v.z > BLENDER_EPS) m0)
    ⟨0, 0, middle_section_height / 2⟩ m0
  translateSel (selVerts (fun v => v.z < -BLENDER_EPS) m1)
    ⟨0, 0, -(middle_section_height / 2)⟩ m1

theorem Econst_extrude_length (sel : List ℕ) (v : Vec3) (m : Mesh) :
    (Econst.extrude sel v m).verts.length = m.verts.length + sel.length := by
  simp [Econst]

theorem Mconst_getD_0 : Mconst.verts.getD 0 0 = ⟨0, 0, 0⟩ := rfl

theorem Mconst_getD_1 : Mconst.verts.getD 1 0 = ⟨2, 2, 2⟩ := rfl

/-- Counterexample to C6 as stated: the recipe extrudes the vertices with
`z > -ε` (not `z > +ε`) and translates those with `z < +ε` (not `z < -ε`);
on an engine mesh containing a vertex at `z = 0` the two selections differ,
and the resulting meshes have different vertex counts. -/
theorem claim_C6_counterexample : scc Econst 1 1 5 ≠ sccSpec Econst 1 1 5 := by
  have hm0 : ellipsoid Econst ⟨1, 1, 1⟩ 5 = Mconst := by
    rw [ellipsoid]; exact compScale_one _
  have hrange : List.range Mconst.verts.length = [0, 1] := rfl
  have hsel1 : selVerts (fun v => v.z > -BLENDER_EPS) Mconst = [0, 1] := by
    simp only [selVerts, hrange, filterP]
    rw [if_pos (show (Mconst.verts.getD 0 0).z > -BLENDER_EPS by
          rw [Mconst_getD_0]; norm_num [BLENDER_EPS]),
        if_pos (show (Mconst.verts.getD 1 0).z > -BLENDER_EPS by
          rw [Mconst_getD_1]; norm_num [BLENDER_EPS])]
  have hsel1s : selVerts (fun v => v.z > BLENDER_EPS) Mconst = [1] := by
    simp only [selVerts, hrange, filterP]
    rw [if_neg (show ¬ (Mconst.verts.getD 0 0).z > BLENDER_EPS by
          rw [Mconst_getD_0]; norm_num [BLENDER_EPS]),
        if_pos (show (Mconst.verts.getD 1 0).z > BLENDER_EPS by
          rw [Mconst_getD_1]; norm_num [BLENDER_EPS])]
  intro h
  have hL := congrArg (fun mm => mm.verts.length) h
  have h1 : (scc Econst 1 1 5).verts.length = 4 := by
    simp only [scc]
    rw [hm0, hsel1, translateSel_length, Econst_extrude_length]
    rfl
  have h2 : (sccSpec Econst 1 1 5).verts.length = 3 := by
    simp only [sccSpec]
    rw [hm0, hsel1s, translateSel_length, Econst_extrude_length]
    rfl
  simp only [h1, h2] at hL
  exact absurd hL (by norm_num)

/-- Claim C6 (amended): the Rod recipe starts from an ellipsoid of the given
diameter with `middle_section_height = height - diameter`; it extrudes
exactly the vertices with `z > -ε` upward by `middle_section_height/2` and
translates exactly the vertices with `z < +ε` downward by the same amount,
where `ε = 1e-5`. -/
theorem claim_C6_rod_recipe (E : Engine) (diameter msh hgt dia : ℝ) (sd : ℕ) :
    fccRod E hgt dia = scc E dia (hgt - dia) 5 ∧
    scc E diameter msh sd
      = translateSel
          (selVerts (fun v => v.z < BLENDER_EPS)
            (E.extrude (selVerts (fun v => v.z > -BLENDER_EPS)
                (ellipsoid E ⟨diameter, diameter, diameter⟩ sd))
              ⟨0, 0, msh / 2⟩
              (ellipsoid E ⟨diameter, diameter, diameter⟩ sd)))
          ⟨0, 0, -(msh / 2)⟩
          (E.extrude (selVerts (fun v => v.z > -BLENDER_EPS)
              (ellipsoid E ⟨diameter, diameter, diameter⟩ sd))
            ⟨0, 0, msh / 2⟩
            (ellipsoid E ⟨diameter, diameter, diameter⟩ sd)) ∧
    BLENDER_EPS = 1e-5 ∧
    (∀ (p : Vec3 → Prop) (mm : Mesh) (i : ℕ),
      i ∈ selVerts p mm ↔ i < mm.verts.length ∧ p (mm.verts.getD i 0)) ∧
    (∀ (sel : List ℕ) (t : Vec3) (mm : Mesh) (i : ℕ),
      (translateSel sel t mm).verts[i]?
        = (mm.verts[i]?).map (fun v => if i ∈ sel then v + t else v)) :=
  ⟨rfl, rfl, rfl, mem_selVerts, translateSel_getElem⟩

theorem minShift_eq (m : Mesh) (b : Box6) :
    minShift m b = Vec3.mk b.xMin b.yMin b.zMin - bboxMin m := by
  rw [minShift, location_sub_half]

theorem maxShift_eq (m : Mesh) (b : Box6) :
    maxShift m b = Vec3.mk b.xMax b.yMax b.zMax - bboxMax m := by
  rw [maxShift, location_add_half]

/-- Claim C2: for every object whose bounding box fits the supplied box on
every axis and every accepted draw, the translated object's bounding box is
fully contained in the box; with `fit_in_cylinder`, every post-shift vertex
lies strictly inside the circle of radius `max(y_extent, z_extent)` about
the box (y,z) center; and the returned value is the applied shift. -/
theorem claim_C2_placement (m : Mesh) (b : Box6) (fc : Bool)
    (draws : List Vec3) (shift : Vec3) (mm : Mesh)
    (hne : m.verts ≠ [])
    (hwf : b.yMin ≤ b.yMax ∧ b.zMin ≤ b.zMax)
    (hfits : (dims m).x ≤ b.xMax - b.xMin ∧ (dims m).y ≤ b.yMax - b.yMin ∧
      (dims m).z ≤ b.zMax - b.zMin)
    (hdraws : ∀ dd ∈ draws,
      (minShift m b).x ≤ dd.x ∧ dd.x ≤ (maxShift m b).x ∧
      (minShift m b).y ≤ dd.y ∧ dd.y ≤ (maxShift m b).y ∧
      (minShift m b).z ≤ dd.z ∧ dd.z ≤ (maxShift m b).z)
    (hres : positionRandomly m b fc draws = some (shift, mm)) :
    (b.xMin ≤ (bboxMin mm).x ∧ (bboxMax mm).x ≤ b.xMax ∧
     b.yMin ≤ (bboxMin mm).y ∧ (bboxMax mm).y ≤ b.yMax ∧
     b.zMin ≤ (bboxMin mm).z ∧ (bboxMax mm).z ≤ b.zMax) ∧
    (fc = true → ∀ v ∈ mm.verts, pointFitsInCylinder b v) ∧
    mm = translateMesh shift m := by
  rw [positionRandomly] at hres
  cases hcs : chooseShift b m fc draws with
  | none => rw [hcs] at hres; exact absurd hres (by simp)
  | some s =>
      rw [hcs, Option.some.injEq, Prod.mk.injEq] at hres
      obtain ⟨hs1, hs2⟩ := hres
      subst hs1
      obtain ⟨hmem, hcyl⟩ := chooseShift_sound b m fc draws s hcs
      have h6 := hdraws s hmem
      rw [minShift_eq, maxShift_eq] at h6
      simp only [Vec3.sub_x, Vec3.sub_y, Vec3.sub_z] at h6
      obtain ⟨ha, hb', hc', hd, he, hf⟩ := h6
      have hbmin : bboxMin mm = bboxMin m + s := by
        rw [← hs2]; exact bboxMin_translate s m hne
      have hbmax : bboxMax mm = bboxMax m + s := by
        rw [← hs2]; exact bboxMax_translate s m hne
      refine ⟨?_, ?_, hs2.symm⟩
      · rw [hbmin, hbmax]
        simp only [Vec3.add_x, Vec3.add_y, Vec3.add_z]
        refine ⟨by linarith, by linarith, by linarith, by linarith,
          by linarith, by linarith⟩
      · intro hfc v hv
        rw [← hs2] at hv
        obtain ⟨w, hw, rfl⟩ := List.mem_map.mp hv
        exact hcyl hfc w hw

theorem bboxMin_Mpoint : bboxMin Mpoint = ⟨1, 0, 0⟩ := by
  rw [bboxMin, Vec3.ext_iff]
  norm_num [Mpoint, listMin]

theorem bboxMax_Mpoint : bboxMax Mpoint = ⟨1, 0, 0⟩ := by
  rw [bboxMax, Vec3.ext_iff]
  norm_num [Mpoint, listMax]

theorem dims_Mpoint : dims Mpoint = ⟨0, 0, 0⟩ := by
  rw [dims, bboxMin_Mpoint, bboxMax_Mpoint, Vec3.ext_iff]
  norm_num

/-- A concrete containment box. -/
def bW : Box6 := ⟨-2, 2, -2, 2, -2, 2⟩

theorem positionRandomly_Mpoint :
    positionRandomly Mpoint bW true [0] = some (0, translateMesh 0 Mpoint) := by
  have hacc : (true = true → objectFitsInCylinder bW Mpoint 0) := by
    intro _
    intro v hv
    rcases List.mem_singleton.mp hv with rfl
    rw [pointFitsInCylinder]
    norm_num [cylinderRadius, bW, max_def]
  rw [positionRandomly, chooseShift, if_pos hacc]

/-- Witness for C2 at a concrete mesh, box and draw stream. -/
theorem claim_C2_witness :
    Mpoint.verts ≠ [] ∧
    (bW.yMin ≤ bW.yMax ∧ bW.zMin ≤ bW.zMax) ∧
    ((dims Mpoint).x ≤ bW.xMax - bW.xMin ∧
     (dims Mpoint).y ≤ bW.yMax - bW.yMin ∧
     (dims Mpoint).z ≤ bW.zMax - bW.zMin) ∧
    (∀ dd ∈ ([0] : List Vec3),
      (minShift Mpoint bW).x ≤ dd.x ∧ dd.x ≤ (maxShift Mpoint bW).x ∧
      (minShift Mpoint bW).y ≤ dd.y ∧ dd.y ≤ (maxShift Mpoint bW).y ∧
      (minShift Mpoint bW).z ≤ dd.z ∧ dd.z ≤ (maxShift Mpoint bW).z) ∧
    positionRandomly Mpoint bW true [0] = some (0, translateMesh 0 Mpoint) ∧
    ((bW.xMin ≤ (bboxMin (translateMesh 0 Mpoint)).x ∧
      (bboxMax (translateMesh 0 Mpoint)).x ≤ bW.xMax ∧
      bW.yMin ≤ (bboxMin (translateMesh 0 Mpoint)).y ∧
      (bboxMax (translateMesh 0 Mpoint)).y ≤ bW.yMax ∧
      bW.zMin ≤ (bboxMin (translateMesh 0 Mpoint)).z ∧
      (bboxMax (translateMesh 0 Mpoint)).z ≤ bW.zMax) ∧
     (true = true → ∀ v ∈ (translateMesh 0 Mpoint).verts,
        pointFitsInCylinder bW v) ∧
     translateMesh 0 Mpoint = translateMesh 0 Mpoint) := by
  have hne : Mpoint.verts ≠ [] := by simp [Mpoint]
  have hwf : bW.yMin ≤ bW.yMax ∧ bW.zMin ≤ bW.zMax := by norm_num [bW]
  have hfits : (dims Mpoint).x ≤ bW.xMax - bW.xMin ∧
      (dims Mpoint).y ≤ bW.yMax - bW.yMin ∧
      (dims Mpoint).z ≤ bW.zMax - bW.zMin := by
    rw [dims_Mpoint]
    norm_num [bW]
  have hdraws : ∀ dd ∈ ([0] : List Vec3),
      (minShift Mpoint bW).x ≤ dd.x ∧ dd.x ≤ (maxShift Mpoint bW).x ∧
      (minShift Mpoint bW).y ≤ dd.y ∧ dd.y ≤ (maxShift Mpoint bW).y ∧
      (minShift Mpoint bW).z ≤ dd.z ∧ dd.z ≤ (maxShift Mpoint bW).z := by
    intro dd hdd
    rcases List.mem_singleton.mp hdd with rfl
    rw [minShift_eq, maxShift_eq, bboxMin_Mpoint, bboxMax_Mpoint]
    norm_num [bW]
  exact ⟨hne, hwf, hfits, hdraws, positionRandomly_Mpoint,
    claim_C2_placement Mpoint bW true [0] 0 (translateMesh 0 Mpoint) hne hwf
      hfits hdraws positionRandomly_Mpoint⟩

/-- Claim C3: each `add_random_core_shell_shape` call rotates the core by
exactly the same quaternion as the shell, scales the core so its
enclosing-sphere diameter equals the shell's enclosing-sphere diameter times
the single U(0.5,0.9) draw, translates the core by exactly the shift
returned when placing the shell, duplicates the core before any boolean
operation, sets `core := core ∩ shell`, then `shell := shell - core_copy`
(subtracting the pre-intersection duplicate, not the clipped core), and
returns the pair `(core, shell)`. -/
theorem claim_C3_core_shell (E : Engine) (extent : Box6)
    (shellIdx coreIdx : ℕ) (pShell pCore : ParamDraws) (q : Quat)
    (fsh fco : ℝ) (draws : List Vec3) (core shell : Mesh)
    (hc : 0 < esd (rotateMeshQ q
      ((CORE_SHELL_SUITABLE_SHAPES.getD coreIdx defaultBuilder) E pCore)))
    (hf : 0 ≤ fco)
    (hres : addRandomCoreShellShape E extent shellIdx coreIdx pShell pCore q
      fsh fco draws = some (core, shell)) :
    ∃ shift shell3,
      positionRandomly
        (smulMesh (fsh / maxDim (rotateMeshQ q
            ((CORE_SHELL_SUITABLE_SHAPES.getD shellIdx defaultBuilder) E pShell)))
          (rotateMeshQ q
            ((CORE_SHELL_SUITABLE_SHAPES.getD shellIdx defaultBuilder) E pShell)))
        (scaleBox 0.95 extent) true draws = some (shift, shell3) ∧
      core = E.boolean BoolOp.intersect
        (translateMesh shift (smulMesh
          (fco * esd shell3 / esd (rotateMeshQ q
            ((CORE_SHELL_SUITABLE_SHAPES.getD coreIdx defaultBuilder) E pCore)))
          (rotateMeshQ q
            ((CORE_SHELL_SUITABLE_SHAPES.getD coreIdx defaultBuilder) E pCore))))
        shell3 ∧
      shell = E.boolean BoolOp.difference shell3
        (translateMesh shift (smulMesh
          (fco * esd shell3 / esd (rotateMeshQ q
            ((CORE_SHELL_SUITABLE_SHAPES.getD coreIdx defaultBuilder) E pCore)))
          (rotateMeshQ q
            ((CORE_SHELL_SUITABLE_SHAPES.getD coreIdx defaultBuilder) E pCore)))) ∧
      esd (translateMesh shift (smulMesh
          (fco * esd shell3 / esd (rotateMeshQ q
            ((CORE_SHELL_SUITABLE_SHAPES.getD coreIdx defaultBuilder) E pCore)))
          (rotateMeshQ q
            ((CORE_SHELL_SUITABLE_SHAPES.getD coreIdx defaultBuilder) E pCore))))
        = fco * esd shell3 := by
  simp only [addRandomCoreShellShape] at hres
  cases hpr : positionRandomly
      (smulMesh (fsh / maxDim (rotateMeshQ q
          ((CORE_SHELL_SUITABLE_SHAPES.getD shellIdx defaultBuilder) E pShell)))
        (rotateMeshQ q
          ((CORE_SHELL_SUITABLE_SHAPES.getD shellIdx defaultBuilder) E pShell)))
      (scaleBox 0.95 extent) true draws with
  | none => rw [hpr] at hres; exact absurd hres (by simp)
  | some x =>
      rw [hpr] at hres
      simp only [Option.some.injEq, Prod.mk.injEq] at hres
      obtain ⟨hcore, hshell⟩ := hres
      refine ⟨x.1, x.2, rfl, hcore.symm, hshell.symm, ?_⟩
      rw [esd_translate,
        esd_smul _ (div_nonneg (mul_nonneg hf (esd_nonneg x.2)) hc.le),
        div_mul_cancel₀ _ hc.ne']

/-- Zero parameter draws (the Sphere sampler ignores them). -/
def pW : ParamDraws := ⟨0, 0, 0, 0⟩

theorem poolBuild0 :
    (CORE_SHELL_SUITABLE_SHAPES.getD 0 defaultBuilder) Econst pW = Mconst := by
  show rSphere Econst pW = Mconst
  rw [rSphere, fccSphere, ellipsoid]
  exact compScale_one Mconst

theorem rotBuild0 :
    rotateMeshQ idQuat ((CORE_SHELL_SUITABLE_SHAPES.getD 0 defaultBuilder)
      Econst pW) = Mconst := by
  rw [poolBuild0, rotateMeshQ_id]

theorem shellPre_place :
    positionRandomly (smulMesh ((0.8 : ℝ) / maxDim Mconst) Mconst)
      (scaleBox 0.95 bW) true [0]
      = some (0, translateMesh 0 (smulMesh ((0.8 : ℝ) / maxDim Mconst) Mconst)) := by
  have hc4 : (0.8 : ℝ) / maxDim Mconst = 0.4 := by rw [maxDim_Mconst]; norm_num
  have hacc : (true = true → objectFitsInCylinder (scaleBox 0.95 bW)
      (smulMesh ((0.8 : ℝ) / maxDim Mconst) Mconst) 0) := by
    intro _
    intro v hv
    have hv' : v = ((0.8 : ℝ) / maxDim Mconst) • (⟨0, 0, 0⟩ : Vec3) ∨
        v = ((0.8 : ℝ) / maxDim Mconst) • (⟨2, 2, 2⟩ : Vec3) := by
      simpa [smulMesh, Mconst] using hv
    rw [pointFitsInCylinder]
    rcases hv' with rfl | rfl <;>
      norm_num [cylinderRadius, scaleBox, bW, maxDim_Mconst, max_def]
  rw [positionRandomly, chooseShift, if_pos hacc]

/-- The shell mesh after placement, in the concrete core-shell run. -/
def shellPlaced : Mesh :=
  translateMesh 0 (smulMesh ((0.8 : ℝ) / maxDim Mconst) Mconst)

/-- The translated, scaled core (the pre-intersection duplicate), in the
concrete core-shell run. -/
def corePre : Mesh :=
  translateMesh 0 (smulMesh ((0.7 : ℝ) * esd shellPlaced / esd Mconst) Mconst)

/-- The returned core of the concrete core-shell run. -/
def coreW : Mesh := Econst.boolean BoolOp.intersect corePre shellPlaced

/-- The returned shell of the concrete core-shell run. -/
def shellW : Mesh := Econst.boolean BoolOp.difference shellPlaced corePre

theorem coreShell_eval :
    addRandomCoreShellShape Econst bW 0 0 pW pW idQuat 0.8 0.7 [0]
      = some (coreW, shellW) := by
  simp only [addRandomCoreShellShape]
  rw [poolBuild0, rotateMeshQ_id, shellPre_place]
  rfl

/-- Witness for C3: a concrete core-shell run through a concrete engine. -/
theorem claim_C3_witness :
    0 < esd (rotateMeshQ idQuat
      ((CORE_SHELL_SUITABLE_SHAPES.getD 0 defaultBuilder) Econst pW)) ∧
    (0 : ℝ) ≤ 0.7 ∧
    addRandomCoreShellShape Econst bW 0 0 pW pW idQuat 0.8 0.7 [0]
      = some (coreW, shellW) ∧
    (∃ shift shell3,
      positionRandomly
        (smulMesh (0.8 / maxDim (rotateMeshQ idQuat
            ((CORE_SHELL_SUITABLE_SHAPES.getD 0 defaultBuilder) Econst pW)))
          (rotateMeshQ idQuat
            ((CORE_SHELL_SUITABLE_SHAPES.getD 0 defaultBuilder) Econst pW)))
        (scaleBox 0.95 bW) true [0] = some (shift, shell3) ∧
      coreW = Econst.boolean BoolOp.intersect
        (translateMesh shift (smulMesh
          (0.7 * esd shell3 / esd (rotateMeshQ idQuat
            ((CORE_SHELL_SUITABLE_SHAPES.getD 0 defaultBuilder) Econst pW)))
          (rotateMeshQ idQuat
            ((CORE_SHELL_SUITABLE_SHAPES.getD 0 defaultBuilder) Econst pW))))
        shell3 ∧
      shellW = Econst.boolean BoolOp.difference shell3
        (translateMesh shift (smulMesh
          (0.7 * esd shell3 / esd (rotateMeshQ idQuat
            ((CORE_SHELL_SUITABLE_SHAPES.getD 0 defaultBuilder) Econst pW)))
          (rotateMeshQ idQuat
            ((CORE_SHELL_SUITABLE_SHAPES.getD 0 defaultBuilder) Econst pW)))) ∧
      esd (translateMesh shift (smulMesh
          (0.7 * esd shell3 / esd (rotateMeshQ idQuat
            ((CORE_SHELL_SUITABLE_SHAPES.getD 0 defaultBuilder) Econst pW)))
          (rotateMeshQ idQuat
            ((CORE_SHELL_SUITABLE_SHAPES.getD 0 defaultBuilder) Econst pW))))
        = 0.7 * esd shell3) := by
  have hc0 : 0 < esd (rotateMeshQ idQuat
      ((CORE_SHELL_SUITABLE_SHAPES.getD 0 defaultBuilder) Econst pW)) := by
    rw [rotBuild0]; exact esd_Mconst_pos
  exact ⟨hc0, by norm_num, coreShell_eval,
    claim_C3_core_shell Econst bW 0 0 pW pW idQuat 0.8 0.7 [0] coreW shellW
      hc0 (by norm_num) coreShell_eval⟩

/-- Claim C5 (amended): `add_random_shape` picks the pool family at the
uniformly drawn index, builds it via the Randomized Parameter Sampler
(drawing that family's random parameters, not fixed defaults), applies the
Orientation Sampler, uniformly scales so the object's maximum dimension
equals the single U(0.75,0.9) draw, and places it via the Placement Engine
into the Scene's extent box with every bound multiplied by 0.95, with
`fit_in_cylinder = true`. -/
theorem claim_C5_add_random_shape (E : Engine) (extent : Box6) (i : ℕ)
    (p : ParamDraws) (q : Quat) (f : ℝ) (draws : List Vec3) (mm : Mesh)
    (h1 : 0 < maxDim (rotateMeshQ q ((ALL_SHAPES.getD i defaultBuilder) E p)))
    (hf : 0 ≤ f)
    (hres : addRandomShape E extent i p q f draws = some mm) :
    ∃ shift,
      positionRandomly
        (smulMesh (f / maxDim (rotateMeshQ q ((ALL_SHAPES.getD i defaultBuilder) E p)))
          (rotateMeshQ q ((ALL_SHAPES.getD i defaultBuilder) E p)))
        (scaleBox 0.95 extent) true draws = some (shift, mm) ∧
      maxDim (smulMesh (f / maxDim (rotateMeshQ q ((ALL_SHAPES.getD i defaultBuilder) E p)))
        (rotateMeshQ q ((ALL_SHAPES.getD i defaultBuilder) E p))) = f := by
  simp only [addRandomShape] at hres
  cases hpr : positionRandomly
      (smulMesh (f / maxDim (rotateMeshQ q ((ALL_SHAPES.getD i defaultBuilder) E p)))
        (rotateMeshQ q ((ALL_SHAPES.getD i defaultBuilder) E p)))
      (scaleBox 0.95 extent) true draws with
  | none => rw [hpr] at hres; exact absurd hres (by simp)
  | some x =>
      rw [hpr] at hres
      simp only [Option.some.injEq] at hres
      refine ⟨x.1, ?_, ?_⟩
      · rw [← hres]
      · rw [maxDim_smul _ (div_nonneg hf h1.le), div_mul_cancel₀ _ h1.ne']

theorem allBuild0 : (ALL_SHAPES.getD 0 defaultBuilder) Econst pW = Mconst := by
  show rSphere Econst pW = Mconst
  rw [rSphere, fccSphere, ellipsoid]
  exact compScale_one Mconst

theorem addRandomShape_eval :
    addRandomShape Econst bW 0 pW idQuat 0.8 [0] = some shellPlaced := by
  simp only [addRandomShape]
  rw [allBuild0, rotateMeshQ_id, shellPre_place]
  rfl

/-- Witness for C5: a concrete run through a concrete engine. -/
theorem claim_C5_witness :
    0 < maxDim (rotateMeshQ idQuat ((ALL_SHAPES.getD 0 defaultBuilder) Econst pW)) ∧
    (0 : ℝ) ≤ 0.8 ∧
    addRandomShape Econst bW 0 pW idQuat 0.8 [0] = some shellPlaced ∧
    (∃ shift,
      positionRandomly
        (smulMesh (0.8 / maxDim (rotateMeshQ idQuat ((ALL_SHAPES.getD 0 defaultBuilder) Econst pW)))
          (rotateMeshQ idQuat ((ALL_SHAPES.getD 0 defaultBuilder) Econst pW)))
        (scaleBox 0.95 bW) true [0] = some (shift, shellPlaced) ∧
      maxDim (smulMesh (0.8 / maxDim (rotateMeshQ idQuat ((ALL_SHAPES.getD 0 defaultBuilder) Econst pW)))
        (rotateMeshQ idQuat ((ALL_SHAPES.getD 0 defaultBuilder) Econst pW))) = 0.8) := by
  have h1 : 0 < maxDim (rotateMeshQ idQuat
      ((ALL_SHAPES.getD 0 defaultBuilder) Econst pW)) := by
    rw [allBuild0, rotateMeshQ_id, maxDim_Mconst]
    norm_num
  exact ⟨h1, by norm_num, addRandomShape_eval,
    claim_C5_add_random_shape Econst bW 0 pW idQuat 0.8 [0] shellPlaced h1
      (by norm_num) addRandomShape_eval⟩

/-- Counterexample to C5 as stated: the pool builders draw random
parameters; at the Cube pool slot, the build with smoothing draw 0.05
differs from the build with the Library's default (non-random) parameters
(smoothing 0). -/
theorem claim_C5_counterexample :
    (ALL_SHAPES.getD 1 defaultBuilder) Econst ⟨0.05, 0, 0, 0⟩
      ≠ (ALL_SHAPES_DEFAULT.getD 1 (fun _ => Mconst)) Econst := by
  have hsm : smoothEdges Econst 0.05 3 Mconst = Mpoint := by
    simp only [smoothEdges]
    rw [if_neg]
    · rfl
    · rw [maxDim_Mconst]; norm_num [BLENDER_EPS]
  have hL : ((ALL_SHAPES.getD 1 defaultBuilder) Econst ⟨0.05, 0, 0, 0⟩).verts.length = 1 := by
    show (rCube Econst ⟨0.05, 0, 0, 0⟩).verts.length = 1
    rw [rCube, fccCube, boxMesh_Econst_one, hsm, rescaleTo, smulMesh_length]
    rfl
  have hR : ((ALL_SHAPES_DEFAULT.getD 1 (fun _ => Mconst)) Econst).verts.length = 2 := by
    show (fccCube Econst 1 0).verts.length = 2
    rw [fccCube, boxMesh_Econst_one, smoothEdges_zero, rescaleTo, smulMesh_length]
    rfl
  intro h
  have hlen := congrArg (fun mm => mm.verts.length) h
  simp only at hlen
  rw [hL, hR] at hlen
  exact absurd hlen (by norm_num)

/-- Claim C1: for every nominal size s > 0 and every shape family, the
builder returns an object whose designated size metric (enclosing-sphere
diameter for Octahedron / TruncatedOctahedron / Icosahedron, planar diagonal
for the Prism family and Decahedron, z-dimension for Bipyramid, max
dimension for Cube) equals s exactly (hence within the ~1e-3 relative
remeshing tolerance); in particular `TruncatedOctahedron(size=2.0,
truncation_degree=0.5, smoothing_degree=0)` has enclosing-sphere diameter 2.
Each conjunct assumes the corresponding pre-rescale mesh has a positive
metric (the engine produced a nondegenerate mesh). -/
theorem claim_C1_size_metrics (E : Engine) (s sm tr tips edg h trB : ℝ)
    (hs : 0 < s)
    (hCube : 0 < maxDim (smoothEdges E sm 3 (boxMesh E ⟨s, s, s⟩)))
    (hOct : 0 < esd (smoothEdges E sm 3 (basicOctahedron E s 0)))
    (hTOct : 0 < esd (smoothEdges E sm 3 (basicOctahedron E s tr)))
    (hIco : 0 < esd (smoothEdges E sm 3 (basicIcosahedron E s)))
    (hTri : 0 < hypotXY (basicPrism E 3 s h 0 tips edg 3))
    (hTTri : 0 < hypotXY (prismPre E 3 s h tr tips edg 3))
    (hSq : 0 < hypotXY (prismPre E 4 s h tr tips edg 3))
    (hHex : 0 < hypotXY (prismPre E 6 s h tr tips edg 3))
    (hDec : 0 < hypotXY (smoothEdges E sm 3 (basicBipyramid E 5 s (1.547 * s / 2) 0)))
    (hBip : 0 < zDim (smoothEdges E sm 3 (basicBipyramid E 5 (s / 3.7321) s trB)))
    (hScen : 0 < esd (smoothEdges E 0 3 (basicOctahedron E 2 0.5))) :
    maxDim (fccCube E s sm) = s ∧
    esd (fccOctahedron E s sm) = s ∧
    esd (fccTruncatedOctahedron E s tr sm) = s ∧
    esd (fccIcosahedron E s sm) = s ∧
    hypotXY (fccTriangle E s h tips edg) = s ∧
    hypotXY (fccTruncatedTriangle E s h tr tips edg) = s ∧
    hypotXY (fccSquare E s h tr tips edg) = s ∧
    hypotXY (fccHexagon E s h tr tips edg) = s ∧
    hypotXY (fccDecahedron E s sm) = s ∧
    zDim (fccBipyramid E s trB sm) = s ∧
    esd (fccTruncatedOctahedron E 2 0.5 0) = 2 := by
  refine ⟨?_, ?_, ?_, ?_, ?_, ?_, ?_, ?_, ?_, ?_, ?_⟩
  · rw [fccCube]
    exact rescaleTo_maxDim s _ hs.le hCube
  · rw [fccOctahedron]
    exact rescaleTo_esd s _ hs.le hOct
  · rw [fccTruncatedOctahedron]
    exact rescaleTo_esd s _ hs.le hTOct
  · rw [fccIcosahedron]
    exact rescaleTo_esd s _ hs.le hIco
  · rw [fccTriangle]
    exact rescaleTo_hypotXY s _ hs.le hTri
  · rw [fccTruncatedTriangle, basicPrism]
    exact rescaleTo_hypotXY s _ hs.le hTTri
  · rw [fccSquare, basicPrism]
    exact rescaleTo_hypotXY s _ hs.le hSq
  · rw [fccHexagon, basicPrism]
    exact rescaleTo_hypotXY s _ hs.le hHex
  · rw [fccDecahedron]
    exact rescaleTo_hypotXY s _ hs.le hDec
  · rw [fccBipyramid]
    exact rescaleTo_zDim s _ hs.le hBip
  · rw [fccTruncatedOctahedron]
    exact rescaleTo_esd 2 _ (by norm_num) hScen

theorem octTruncStage_Econst_pos (tr : ℝ) (m : Mesh) (h : tr > 0) :
    octTruncStage Econst tr m = Mconst := by
  rw [octTruncStage, if_pos h]
  rfl

theorem prismTruncStage_Econst_pos (tr : ℝ) (m : Mesh) (h : tr > 0) :
    prismTruncStage Econst tr m = Mconst := by
  rw [prismTruncStage, if_pos h]
  rfl

theorem bipyramidBase_Econst (n : ℕ) (d hgt : ℝ) :
    bipyramidBase Econst n d hgt = Mconst := rfl

/-- Witness for C1 at a concrete engine and concrete parameters. -/
theorem claim_C1_witness :
    (0 : ℝ) < 1 ∧
    0 < maxDim (smoothEdges Econst 0 3 (boxMesh Econst ⟨1, 1, 1⟩)) ∧
    0 < esd (smoothEdges Econst 0 3 (basicOctahedron Econst 1 0)) ∧
    0 < esd (smoothEdges Econst 0 3 (basicOctahedron Econst 1 0.5)) ∧
    0 < esd (smoothEdges Econst 0 3 (basicIcosahedron Econst 1)) ∧
    0 < hypotXY (basicPrism Econst 3 1 1 0 0 0 3) ∧
    0 < hypotXY (prismPre Econst 3 1 1 0.5 0 0 3) ∧
    0 < hypotXY (prismPre Econst 4 1 1 0.5 0 0 3) ∧
    0 < hypotXY (prismPre Econst 6 1 1 0.5 0 0 3) ∧
    0 < hypotXY (smoothEdges Econst 0 3 (basicBipyramid Econst 5 1 (1.547 * 1 / 2) 0)) ∧
    0 < zDim (smoothEdges Econst 0 3 (basicBipyramid Econst 5 (1 / 3.7321) 1 0)) ∧
    0 < esd (smoothEdges Econst 0 3 (basicOctahedron Econst 2 0.5)) ∧
    (maxDim (fccCube Econst 1 0) = 1 ∧
     esd (fccOctahedron Econst 1 0) = 1 ∧
     esd (fccTruncatedOctahedron Econst 1 0.5 0) = 1 ∧
     esd (fccIcosahedron Econst 1 0) = 1 ∧
     hypotXY (fccTriangle Econst 1 1 0 0) = 1 ∧
     hypotXY (fccTruncatedTriangle Econst 1 1 0.5 0 0) = 1 ∧
     hypotXY (fccSquare Econst 1 1 0.5 0 0) = 1 ∧
     hypotXY (fccHexagon Econst 1 1 0.5 0 0) = 1 ∧
     hypotXY (fccDecahedron Econst 1 0) = 1 ∧
     zDim (fccBipyramid Econst 1 0 0) = 1 ∧
     esd (fccTruncatedOctahedron Econst 2 0.5 0) = 2) := by
  have hCube : 0 < maxDim (smoothEdges Econst 0 3 (boxMesh Econst ⟨1, 1, 1⟩)) := by
    rw [boxMesh_Econst_one, smoothEdges_zero, maxDim_Mconst]
    norm_num
  have hOct : 0 < esd (smoothEdges Econst 0 3 (basicOctahedron Econst 1 0)) := by
    rw [smoothEdges_zero, basicOctahedron, octTruncStage_zero, octBase_Econst,
      rescaleTo_esd 1 Mconst (by norm_num) esd_Mconst_pos]
    norm_num
  have hTOct : 0 < esd (smoothEdges Econst 0 3 (basicOctahedron Econst 1 0.5)) := by
    rw [smoothEdges_zero, basicOctahedron,
      octTruncStage_Econst_pos 0.5 _ (by norm_num),
      rescaleTo_esd 1 Mconst (by norm_num) esd_Mconst_pos]
    norm_num
  have hIco : 0 < esd (smoothEdges Econst 0 3 (basicIcosahedron Econst 1)) := by
    rw [smoothEdges_zero, show basicIcosahedron Econst 1 = Mconst from rfl]
    exact esd_Mconst_pos
  have hTri : 0 < hypotXY (basicPrism Econst 3 1 1 0 0 0 3) := by
    rw [basicPrism, prismPre_zero,
      show Econst.cylinder 3 ((1 : ℝ) / 2) 1 = Mconst from rfl,
      rescaleTo_hypotXY 1 Mconst (by norm_num) hypotXY_Mconst_pos]
    norm_num
  have hTTri : 0 < hypotXY (prismPre Econst 3 1 1 0.5 0 0 3) := by
    rw [prismPre, prismTruncStage_Econst_pos 0.5 _ (by norm_num),
      prismTipsStage_zero, prismEdgesStage_zero]
    exact hypotXY_Mconst_pos
  have hSq : 0 < hypotXY (prismPre Econst 4 1 1 0.5 0 0 3) := by
    rw [prismPre, prismTruncStage_Econst_pos 0.5 _ (by norm_num),
      prismTipsStage_zero, prismEdgesStage_zero]
    exact hypotXY_Mconst_pos
  have hHex : 0 < hypotXY (prismPre Econst 6 1 1 0.5 0 0 3) := by
    rw [prismPre, prismTruncStage_Econst_pos 0.5 _ (by norm_num),
      prismTipsStage_zero, prismEdgesStage_zero]
    exact hypotXY_Mconst_pos
  have hDec : 0 < hypotXY (smoothEdges Econst 0 3
      (basicBipyramid Econst 5 1 (1.547 * 1 / 2) 0)) := by
    rw [smoothEdges_zero, basicBipyramid_zero, bipyramidBase_Econst]
    exact hypotXY_Mconst_pos
  have hBip : 0 < zDim (smoothEdges Econst 0 3
      (basicBipyramid Econst 5 (1 / 3.7321) 1 0)) := by
    rw [smoothEdges_zero, basicBipyramid_zero, bipyramidBase_Econst, zDim_Mconst]
    norm_num
  have hScen : 0 < esd (smoothEdges Econst 0 3 (basicOctahedron Econst 2 0.5)) := by
    rw [smoothEdges_zero, basicOctahedron,
      octTruncStage_Econst_pos 0.5 _ (by norm_num),
      rescaleTo_esd 2 Mconst (by norm_num) esd_Mconst_pos]
    norm_num
  exact ⟨by norm_num, hCube, hOct, hTOct, hIco, hTri, hTTri, hSq, hHex, hDec,
    hBip, hScen,
    claim_C1_size_metrics Econst 1 0 0.5 0 0 1 0 (by norm_num) hCube hOct
      hTOct hIco hTri hTTri hSq hHex hDec hBip hScen⟩
